import Mathlib

/-!
Verification development for the NanoScale host agent.

Strings from the Rust sources are modelled as `List Char`; byte buffers as
`List Nat`.  Every definition is a direct shallow embedding of the function of
the same (snake_case) name in the repository, with external effects (DB
queries, systemd command output, the filesystem) passed in as explicit
arguments or oracle functions.
-/

namespace NanoScale

/-- Decidable equality for `Except`, used to evaluate the models on
concrete inputs. -/
instance {ε α : Type} [DecidableEq ε] [DecidableEq α] : DecidableEq (Except ε α) :=
  fun a b =>
    match a, b with
    | .error e1, .error e2 =>
      if h : e1 = e2 then isTrue (by rw [h])
      else isFalse (fun hh => h (Except.error.inj hh))
    | .error _, .ok _ => isFalse (fun hh => Except.noConfusion hh)
    | .ok _, .error _ => isFalse (fun hh => Except.noConfusion hh)
    | .ok v1, .ok v2 =>
      if h : v1 = v2 then isTrue (by rw [h])
      else isFalse (fun hh => h (Except.ok.inj hh))

/-- Convert a Lean string literal to the `List Char` representation used
throughout this development. -/
def str (s : String) : List Char := s.toList

/-- Rust `str::starts_with`. -/
def strStartsWith (s p : List Char) : Bool := List.isPrefixOf p s

/-- Rust `str::ends_with`. -/
def strEndsWith (s p : List Char) : Bool := List.isPrefixOf p.reverse s.reverse

/-- Rust `str::strip_suffix`. -/
def stripSuffix (s p : List Char) : Option (List Char) :=
  if strEndsWith s p then some (s.take (s.length - p.length)) else none

/-- Rust `str::contains` for a needle string: some contiguous run of `s`
equals `needle`. -/
def containsSeq (s needle : List Char) : Bool :=
  match s with
  | [] => List.isPrefixOf needle []
  | _ :: rest => List.isPrefixOf needle s || containsSeq rest needle

/-- Rust `char::is_ascii_alphanumeric`. -/
def isAsciiAlphanumeric (c : Char) : Bool :=
  ('a' ≤ c && c ≤ 'z') || ('A' ≤ c && c ≤ 'Z') || ('0' ≤ c && c ≤ '9')

/-- Rust `char::to_ascii_lowercase`. -/
def asciiToLower (c : Char) : Char :=
  if 'A' ≤ c && c ≤ 'Z' then Char.ofNat (c.toNat + 32) else c

/-- Rust `char::is_ascii_whitespace`. -/
def isAsciiWhitespace (c : Char) : Bool :=
  c = ' ' || c = '\t' || c = '\n' || c = '\r' || c = Char.ofNat 12

/-- Rust `str::trim` (both ends, whitespace). -/
def trimAscii (s : List Char) : List Char :=
  ((s.dropWhile isAsciiWhitespace).reverse.dropWhile isAsciiWhitespace).reverse

/-- `std::path::Path::file_name`: the part after the final `/`. -/
def fileNameOf (p : List Char) : List Char :=
  (p.reverse.takeWhile (fun c => decide (c ≠ '/'))).reverse

/-- `std::path::Path::extension` on a file name: the part after the final
dot, provided a dot exists at a position other than the start. -/
def extensionOf (f : List Char) : Option (List Char) :=
  let revExt := f.reverse.takeWhile (fun c => decide (c ≠ '.'))
  if revExt.length + 1 < f.length then some revExt.reverse else none

/-- ASCII-case-insensitive string equality (`str::eq_ignore_ascii_case`). -/
def eqIgnoreAsciiCase (a b : List Char) : Bool :=
  a.map asciiToLower = b.map asciiToLower

/-- `has_conf_extension` from `system/privilege_wrapper.rs`. -/
def hasConfExtension (path : List Char) : Bool :=
  match extensionOf (fileNameOf path) with
  | some ext => eqIgnoreAsciiCase ext (str "conf")
  | none => false

/-! ## Privileged command gate (`system/privilege_wrapper.rs`) -/

def SYSTEMCTL_BIN : List Char := str "/usr/bin/systemctl"
def SERVICE_BIN : List Char := str "/usr/sbin/service"
def USERADD_BIN : List Char := str "/usr/sbin/useradd"
def USERDEL_BIN : List Char := str "/usr/sbin/userdel"
def CERTBOT_BIN : List Char := str "/usr/bin/certbot"
def MV_BIN : List Char := str "/usr/bin/mv"
def RM_BIN : List Char := str "/usr/bin/rm"
def CHOWN_BIN : List Char := str "/usr/bin/chown"
def FALLOCATE_BIN : List Char := str "/usr/bin/fallocate"

/-- The `allowed_binaries` set built in `PrivilegeWrapper::new`. -/
def allowedBinaries : List (List Char) :=
  [SYSTEMCTL_BIN, SERVICE_BIN, USERADD_BIN, USERDEL_BIN, CERTBOT_BIN,
   MV_BIN, RM_BIN, CHOWN_BIN, FALLOCATE_BIN]

/-- `PrivilegeWrapper::validate_systemctl_args`. -/
def validateSystemctlArgs (args : List (List Char)) : Bool :=
  if args = [str "daemon-reload"] then true
  else if args.length = 3
      && (args.getD 0 [] = str "enable" || args.getD 0 [] = str "disable")
      && args.getD 1 [] = str "--now"
      && strStartsWith (args.getD 2 []) (str "nanoscale-")
      && strEndsWith (args.getD 2 []) (str ".service") then true
  else if args = [str "status", str "nanoscale-agent"] then true
  else if args.length = 4
      && args.getD 0 [] = str "show"
      && strStartsWith (args.getD 1 []) (str "--property=")
      && args.getD 2 [] = str "--value"
      && strStartsWith (args.getD 3 []) (str "nanoscale-")
      && strEndsWith (args.getD 3 []) (str ".service") then true
  else if args.length = 3
      && args.getD 0 [] = str "show"
      && strStartsWith (args.getD 1 []) (str "--property=")
      && strStartsWith (args.getD 2 []) (str "nanoscale-")
      && strEndsWith (args.getD 2 []) (str ".service") then true
  else if args.length = 2
      && (args.getD 0 [] = str "start" || args.getD 0 [] = str "stop"
          || args.getD 0 [] = str "restart")
      && strStartsWith (args.getD 1 []) (str "nanoscale-") then true
  else false

/-- `PrivilegeWrapper::validate_service_args`. -/
def validateServiceArgs (args : List (List Char)) : Bool :=
  args = [str "nginx", str "reload"]

/-- `PrivilegeWrapper::validate_useradd_args`. -/
def validateUseraddArgs (args : List (List Char)) : Bool :=
  args.length = 4
    && args.getD 0 [] = str "-r"
    && args.getD 1 [] = str "-s"
    && args.getD 2 [] = str "/bin/false"
    && strStartsWith (args.getD 3 []) (str "nanoscale-")

/-- `PrivilegeWrapper::validate_userdel_args`. -/
def validateUserdelArgs (args : List (List Char)) : Bool :=
  args.length = 1 && strStartsWith (args.getD 0 []) (str "nanoscale-")

/-- Accumulator for the `certonly` argument scan in
`PrivilegeWrapper::validate_certbot_certonly_webroot_args`. -/
structure CertbotScan where
  hasWebroot : Bool
  hasNonInteractive : Bool
  hasAgreeTos : Bool
  hasKeepUntilExpiring : Bool
  webrootPath : Option (List Char)
  domain : Option (List Char)
  email : Option (List Char)
deriving DecidableEq

def certbotScanInit : CertbotScan := ⟨false, false, false, false, none, none, none⟩

/-- The `while` scan over certbot arguments; `none` models an early error
return for an unknown flag or a flag missing its value. -/
def certbotScan : List (List Char) → CertbotScan → Option CertbotScan
  | [], st => some st
  | a :: rest, st =>
    if a = str "certonly" then certbotScan rest st
    else if a = str "--webroot" then certbotScan rest { st with hasWebroot := true }
    else if a = str "-w" then
      match rest with
      | [] => none
      | v :: rest2 => certbotScan rest2 { st with webrootPath := some v }
    else if a = str "-d" then
      match rest with
      | [] => none
      | v :: rest2 => certbotScan rest2 { st with domain := some v }
    else if a = str "--email" then
      match rest with
      | [] => none
      | v :: rest2 => certbotScan rest2 { st with email := some v }
    else if a = str "--non-interactive" then certbotScan rest { st with hasNonInteractive := true }
    else if a = str "--agree-tos" then certbotScan rest { st with hasAgreeTos := true }
    else if a = str "--keep-until-expiring" then
      certbotScan rest { st with hasKeepUntilExpiring := true }
    else none

/-- Character class accepted for the certbot `-d` domain value. -/
def isCertbotDomainChar (c : Char) : Bool :=
  isAsciiAlphanumeric c || c = '.' || c = '-'

/-- `PrivilegeWrapper::validate_certbot_certonly_webroot_args` (the checks
after the scan). -/
def validateCertbotCertonlyWebrootArgs (args : List (List Char)) : Bool :=
  match certbotScan args certbotScanInit with
  | none => false
  | some st =>
    st.hasWebroot && st.hasNonInteractive && st.hasAgreeTos && st.hasKeepUntilExpiring
      && (match st.webrootPath with
          | none => false
          | some w => w = str "/opt/nanoscale/acme")
      && (match st.domain with
          | none => false
          | some d =>
            !(trimAscii d).isEmpty && containsSeq d (str ".")
              && d.all isCertbotDomainChar)
      && (match st.email with
          | none => false
          | some e =>
            !(trimAscii e).isEmpty && !containsSeq e (str " ") && containsSeq e (str "@"))

/-- `PrivilegeWrapper::validate_certbot_args`. -/
def validateCertbotArgs (args : List (List Char)) : Bool :=
  if 2 ≤ args.length && args.getD 0 [] = str "--nginx" then true
  else if args.headD [] = str "certonly" && args ≠ [] then
    validateCertbotCertonlyWebrootArgs args
  else false

/-- `PrivilegeWrapper::validate_mv_args`. -/
def validateMvArgs (args : List (List Char)) : Bool :=
  match args with
  | [source, destination] =>
    (strStartsWith source (str "/opt/nanoscale/tmp/nanoscale-")
      && (strEndsWith source (str ".service") || strEndsWith source (str ".socket")
          || hasConfExtension source))
    && ((strStartsWith destination (str "/etc/systemd/system/nanoscale-")
          && (strEndsWith destination (str ".service") || strEndsWith destination (str ".socket")))
        || (strStartsWith destination (str "/etc/nginx/sites-available/nanoscale-")
            && hasConfExtension destination)
        || (strStartsWith destination (str "/etc/nginx/sites-enabled/nanoscale-")
            && hasConfExtension destination))
  | _ => false

/-- Rust `str::split_once`: split at the first occurrence of `sep`. -/
def splitOnce (s : List Char) (sep : Char) : Option (List Char × List Char) :=
  match s with
  | [] => none
  | c :: rest =>
    if c = sep then some ([], rest)
    else
      match splitOnce rest sep with
      | some (a, b) => some (c :: a, b)
      | none => none

/-- `PrivilegeWrapper::validate_chown_args`. -/
def validateChownArgs (args : List (List Char)) : Bool :=
  match args with
  | [flag, owner, destination] =>
    flag = str "-R"
      && (match splitOnce owner ':' with
          | some (user, group) =>
            strStartsWith user (str "nanoscale-") && strStartsWith group (str "nanoscale-")
          | none => false)
      && (strStartsWith destination (str "/opt/nanoscale/sites/nanoscale-")
          || strStartsWith destination (str "/opt/nanoscale/sites/"))
  | _ => false

/-- `PrivilegeWrapper::rm_file_target_allowed`. -/
def rmFileTargetAllowed (target : List Char) : Bool :=
  (strStartsWith target (str "/etc/systemd/system/nanoscale-")
    && (strEndsWith target (str ".service") || strEndsWith target (str ".socket")))
  || (strStartsWith target (str "/etc/systemd/system/multi-user.target.wants/nanoscale-")
      && strEndsWith target (str ".service"))
  || (strStartsWith target (str "/etc/systemd/system/sockets.target.wants/nanoscale-")
      && strEndsWith target (str ".socket"))
  || (strStartsWith target (str "/etc/nginx/sites-enabled/nanoscale-")
      && hasConfExtension target)

/-- `PrivilegeWrapper::rm_directory_target_allowed`. -/
def rmDirectoryTargetAllowed (target : List Char) : Bool :=
  (strStartsWith target (str "/opt/nanoscale/sites/")
    || strStartsWith target (str "/opt/nanoscale/tmp/"))
  && !containsSeq target (str "..")

/-- `PrivilegeWrapper::validate_rm_args`. -/
def validateRmArgs (args : List (List Char)) : Bool :=
  match args with
  | [flag, target] =>
    (flag = str "-f" && rmFileTargetAllowed target)
    || (flag = str "-rf" && rmDirectoryTargetAllowed target)
  | _ => false

/-- `PrivilegeWrapper::validate_fallocate_args`. -/
def validateFallocateArgs (args : List (List Char)) : Bool :=
  args = [str "-l", str "2G", str "/opt/nanoscale/tmp/nanoscale.swap"]

/-- `PrivilegeWrapper::validate_command_args` (dispatch by binary path). -/
def validateCommandArgs (binaryPath : List Char) (args : List (List Char)) : Bool :=
  if binaryPath = SYSTEMCTL_BIN then validateSystemctlArgs args
  else if binaryPath = SERVICE_BIN then validateServiceArgs args
  else if binaryPath = USERADD_BIN then validateUseraddArgs args
  else if binaryPath = USERDEL_BIN then validateUserdelArgs args
  else if binaryPath = CERTBOT_BIN then validateCertbotArgs args
  else if binaryPath = MV_BIN then validateMvArgs args
  else if binaryPath = RM_BIN then validateRmArgs args
  else if binaryPath = CHOWN_BIN then validateChownArgs args
  else if binaryPath = FALLOCATE_BIN then validateFallocateArgs args
  else false

/-- `PrivilegeWrapper::run` up to its decision to execute: the call is
accepted (reaches the `sudo` invocation) iff the binary is allowlisted and
its arguments validate. -/
def gateAccepts (binaryPath : List Char) (args : List (List Char)) : Bool :=
  decide (binaryPath ∈ allowedBinaries) && validateCommandArgs binaryPath args

/-! ## Unit installer (`deployment/systemd.rs`) -/

/-- `backend_port`: the in-service port derived from the public port. -/
def backendPort (frontPort : Nat) : Except (List Char) Nat :=
  let candidate := frontPort + 10000
  if 65535 < candidate then .error (str "backend port exceeds 65535")
  else .ok candidate

/-- The sequence of `privilege_wrapper.run` invocations issued by
`SystemdGenerator::generate_and_install` for a project id, in program
order (three moves, three chowns, daemon-reload, enable service, enable
socket). -/
def systemdInstallGateCalls (projectId : List Char) : List (List Char × List (List Char)) :=
  let serviceName := str "nanoscale-" ++ projectId
  let tmpService := str "/opt/nanoscale/tmp/" ++ serviceName ++ str ".service"
  let tmpSocket := str "/opt/nanoscale/tmp/" ++ serviceName ++ str ".socket"
  let tmpProxy := str "/opt/nanoscale/tmp/" ++ serviceName ++ str "-proxy.service"
  let serviceTarget := str "/etc/systemd/system/" ++ serviceName ++ str ".service"
  let socketTarget := str "/etc/systemd/system/" ++ serviceName ++ str ".socket"
  let proxyTarget := str "/etc/systemd/system/" ++ serviceName ++ str "-proxy.service"
  [(MV_BIN, [tmpService, serviceTarget]),
   (MV_BIN, [tmpSocket, socketTarget]),
   (MV_BIN, [tmpProxy, proxyTarget]),
   (CHOWN_BIN, [str "root:root", serviceTarget]),
   (CHOWN_BIN, [str "root:root", socketTarget]),
   (CHOWN_BIN, [str "root:root", proxyTarget]),
   (SYSTEMCTL_BIN, [str "daemon-reload"]),
   (SYSTEMCTL_BIN, [str "enable", str "--now", serviceName ++ str ".service"]),
   (SYSTEMCTL_BIN, [str "enable", str "--now", serviceName ++ str ".socket"])]

/-- Whether every gate call of the unit installer passes validation (the
installer aborts with an error at the first rejected call). -/
def systemdInstallAllCallsAccepted (projectId : List Char) : Bool :=
  (systemdInstallGateCalls projectId).all (fun call => gateAccepts call.1 call.2)

/-! ## Idle monitor (`deployment/inactivity_monitor.rs`) -/

/-- `TrafficState` of the idle monitor. -/
structure TrafficState where
  lastNconnections : Nat
  lastActivityUptimeSeconds : Nat
deriving DecidableEq

/-- `INACTIVITY_THRESHOLD_SECONDS = 15 * 60`. -/
def INACTIVITY_THRESHOLD_SECONDS : Nat := 15 * 60

/-- `service_unit_to_socket_unit`. -/
def serviceUnitToSocketUnit (serviceUnitName : List Char) : List Char :=
  match stripSuffix serviceUnitName (str ".service") with
  | some stem => stem ++ str ".socket"
  | none => serviceUnitName ++ str ".socket"

/-- Environment for one `should_stop_service` run: the stdout the two
`systemctl show` invocations would produce if executed, and the host
uptime (`read_uptime_seconds().unwrap_or(0)`). -/
structure MonitorEnv where
  activeStateOutput : Except (List Char) (List Char)
  nconnectionsOutput : Except (List Char) (List Char)
  uptimeSeconds : Nat

/-- A gate invocation whose runtime outcome is `out`: validation happens
first and a rejected call never executes. -/
def runGateWith (out : Except (List Char) (List Char)) (binaryPath : List Char)
    (args : List (List Char)) : Except (List Char) (List Char) :=
  if gateAccepts binaryPath args then out
  else .error (str "arguments are not allowed")

/-- Parse a decimal `u64` (Rust `str::parse::<u64>` on an already trimmed
string; the empty string fails). -/
def parseNatDigits (s : List Char) : Option Nat :=
  if s = [] then none
  else if s.all (fun c => '0' ≤ c && c ≤ '9') then
    some (s.foldl (fun acc c => acc * 10 + (c.toNat - 48)) 0)
  else none

/-- `read_socket_nconnections`. -/
def readSocketNConnections (env : MonitorEnv) (socketUnitName : List Char) :
    Except (List Char) Nat :=
  match runGateWith env.nconnectionsOutput SYSTEMCTL_BIN
      [str "show", str "--property=NConnections", str "--value", socketUnitName] with
  | .error e => .error e
  | .ok out =>
    let trimmed := trimAscii out
    if trimmed = [] then .error (str "empty NConnections output")
    else
      match parseNatDigits trimmed with
      | none => .error (str "invalid NConnections")
      | some v => .ok v

/-- `should_stop_service`: returns the stop decision together with the
updated traffic-state entry for this service. -/
def shouldStopService (serviceName : List Char) (env : MonitorEnv)
    (entry0 : Option TrafficState) : Except (List Char) (Bool × Option TrafficState) :=
  match runGateWith env.activeStateOutput SYSTEMCTL_BIN
      [str "show", str "--property=ActiveState", str "--value", serviceName] with
  | .error e => .error e
  | .ok out =>
    let activeState := trimAscii out
    if activeState ≠ str "active" then .ok (false, entry0)
    else
      let nowUptimeSeconds := env.uptimeSeconds
      if nowUptimeSeconds = 0 then .ok (false, entry0)
      else
        let socketUnitName := serviceUnitToSocketUnit serviceName
        match readSocketNConnections env socketUnitName with
        | .error _ => .ok (false, entry0)
        | .ok nconnections =>
          let entry :=
            match entry0 with
            | some e => e
            | none => ⟨nconnections, nowUptimeSeconds⟩
          let entry :=
            if nconnections ≠ entry.lastNconnections then
              ⟨nconnections, nowUptimeSeconds⟩
            else entry
          let inactiveForSeconds := nowUptimeSeconds - entry.lastActivityUptimeSeconds
          .ok (decide (INACTIVITY_THRESHOLD_SECONDS < inactiveForSeconds), some entry)

/-- The gate invocation the monitor loop performs when (and only when)
`should_stop_service` returns `Ok(true)`. -/
def monitorStopCommand (serviceName : List Char) (env : MonitorEnv)
    (entry0 : Option TrafficState) : Option (List Char × List (List Char)) :=
  match shouldStopService serviceName env entry0 with
  | .ok (true, _) => some (SYSTEMCTL_BIN, [str "stop", serviceName])
  | _ => none

/-! ## Teardown (`deployment/teardown.rs`) -/

/-- Abstract host state: the set of existing filesystem paths and whether
the per-project system user exists. -/
structure HostState where
  files : List (List Char)
  userExists : Bool
deriving DecidableEq

/-- A gate invocation that performs a side effect; validation happens first
and a rejected call is an error. -/
def runGateUnit (binaryPath : List Char) (args : List (List Char)) :
    Except (List Char) Unit :=
  if gateAccepts binaryPath args then .ok ()
  else .error (str "arguments are not allowed")

def removePathFromState (p : List Char) (st : HostState) : HostState :=
  ⟨st.files.filter (fun q => decide (q ≠ p)), st.userExists⟩

/-- `Teardown::remove_file_if_exists`. -/
def removeFileIfExists (p : List Char) (st : HostState) :
    Except (List Char) (Bool × HostState) :=
  if decide (p ∈ st.files) then
    match runGateUnit RM_BIN [str "-f", p] with
    | .error e => .error e
    | .ok _ => .ok (true, removePathFromState p st)
  else .ok (false, st)

/-- `Teardown::remove_directory_if_exists`. -/
def removeDirectoryIfExists (p : List Char) (st : HostState) :
    Except (List Char) HostState :=
  if decide (p ∈ st.files) then
    match runGateUnit RM_BIN [str "-rf", p] with
    | .error e => .error e
    | .ok _ => .ok (removePathFromState p st)
  else .ok st

/-- `Teardown::remove_project_user`. -/
def removeProjectUser (projectId : List Char) (st : HostState) :
    Except (List Char) HostState :=
  let username := str "nanoscale-" ++ projectId
  if st.userExists then
    match runGateUnit USERDEL_BIN [username] with
    | .error e => .error e
    | .ok _ => .ok ⟨st.files, false⟩
  else .ok st

def serviceUnitPath (projectId : List Char) : List Char :=
  str "/etc/systemd/system/nanoscale-" ++ projectId ++ str ".service"

def socketUnitPath (projectId : List Char) : List Char :=
  str "/etc/systemd/system/nanoscale-" ++ projectId ++ str ".socket"

def serviceWantsPath (projectId : List Char) : List Char :=
  str "/etc/systemd/system/multi-user.target.wants/nanoscale-" ++ projectId ++ str ".service"

def socketWantsPath (projectId : List Char) : List Char :=
  str "/etc/systemd/system/sockets.target.wants/nanoscale-" ++ projectId ++ str ".socket"

def nginxConfPath (projectId : List Char) : List Char :=
  str "/etc/nginx/sites-enabled/nanoscale-" ++ projectId ++ str ".conf"

def projectSitesPath (projectId : List Char) : List Char :=
  str "/opt/nanoscale/sites/" ++ projectId

def projectTmpPath (projectId : List Char) : List Char :=
  str "/opt/nanoscale/tmp/" ++ projectId

/-- `Teardown::delete_project`: result is the final host state together
with whether nginx was reloaded.  The initial stop/disable calls have their
results discarded (`let _ = ...`) and do not touch the modelled state. -/
def deleteProject (projectId : List Char) (st : HostState) :
    Except (List Char) (HostState × Bool) := do
  let (_, st) ← removeFileIfExists (serviceUnitPath projectId) st
  let (_, st) ← removeFileIfExists (socketUnitPath projectId) st
  let (_, st) ← removeFileIfExists (serviceWantsPath projectId) st
  let (_, st) ← removeFileIfExists (socketWantsPath projectId) st
  let _ ← runGateUnit SYSTEMCTL_BIN [str "daemon-reload"]
  let (nginxRemoved, st) ← removeFileIfExists (nginxConfPath projectId) st
  if nginxRemoved then
    let _ ← runGateUnit SERVICE_BIN [str "nginx", str "reload"]
  let st ← removeDirectoryIfExists (projectSitesPath projectId) st
  let st ← removeDirectoryIfExists (projectTmpPath projectId) st
  let st ← removeProjectUser projectId st
  return (st, nginxRemoved)

/-- The seven paths `delete_project` removes. -/
def teardownPaths (projectId : List Char) : List (List Char) :=
  [serviceUnitPath projectId, socketUnitPath projectId, serviceWantsPath projectId,
   socketWantsPath projectId, nginxConfPath projectId, projectSitesPath projectId,
   projectTmpPath projectId]

/-- The state `delete_project` leaves behind: all seven per-project paths
removed and the project user gone. -/
def teardownFinalState (projectId : List Char) (st : HostState) : HostState :=
  ⟨st.files.filter (fun q => decide (q ∉ teardownPaths projectId)), false⟩

/-! ## Join-token store (`cluster/token_store.rs`)

`Instant`s are modelled as natural seconds.  The `HashMap<String, Instant>`
is modelled as a key-unique association list; `insert` removes any previous
binding of the key. -/

def TOKEN_TTL_SECONDS : Nat := 600

abbrev TokenState := List (List Char × Nat)

/-- `prune_expired`: retain entries with `expiration > now`. -/
def pruneExpired (now : Nat) (s : TokenState) : TokenState :=
  s.filter (fun e => decide (now < e.2))

/-- `HashMap::get` on the modelled map. -/
def lookupToken (v : List Char) (s : TokenState) : Option Nat :=
  (s.find? (fun e => decide (e.1 = v))).map (fun e => e.2)

/-- `HashMap::remove` on the modelled map. -/
def removeToken (v : List Char) (s : TokenState) : TokenState :=
  s.filter (fun e => decide (e.1 ≠ v))

/-- `HashMap::insert` on the modelled map. -/
def insertToken (v : List Char) (expiration : Nat) (s : TokenState) : TokenState :=
  (v, expiration) :: removeToken v s

/-- `TokenStore::generate_token`, with the randomly sampled token value
passed in as `v`: prune, then store `v` with expiration `now + TTL`. -/
def generateToken (v : List Char) (now : Nat) (s : TokenState) : TokenState :=
  insertToken v (now + TOKEN_TTL_SECONDS) (pruneExpired now s)

/-- `TokenStore::consume_valid_token`: prune, then look up; a present entry
is removed whether still valid or not, and only a still-valid entry yields
`true`. -/
def consumeValidToken (v : List Char) (now : Nat) (s : TokenState) : Bool × TokenState :=
  let s1 := pruneExpired now s
  match lookupToken v s1 with
  | some expiration =>
    if now < expiration then (true, removeToken v s1)
    else (false, removeToken v s1)
  | none => (false, s1)

/-- One store operation with the clock value observed during the call. -/
inductive TokenOp
  | gen (v : List Char) (t : Nat)
  | con (v : List Char) (t : Nat)

def applyTokenOp (op : TokenOp) (s : TokenState) : TokenState :=
  match op with
  | .gen v t => generateToken v t s
  | .con v t => (consumeValidToken v t s).2

def applyTokenOps (ops : List TokenOp) (s : TokenState) : TokenState :=
  ops.foldl (fun s op => applyTokenOp op s) s

/-- Whether an operation generates the value `v`. -/
def generatesValue (v : List Char) : TokenOp → Prop
  | .gen w _ => w = v
  | .con _ _ => False

instance (v : List Char) (op : TokenOp) : Decidable (generatesValue v op) := by
  cases op <;> simp [generatesValue] <;> infer_instance

/-! ## Subdomain assignment (`orchestrator/project_domain.rs`) -/

inductive DomainError
  | badRequest
  | conflict
deriving DecidableEq

/-- The character-accumulating loop of `slugify_project_name`;
`prevSep` mirrors `previous_was_separator`. -/
def slugifyCore : List Char → Bool → List Char
  | [], _ => []
  | c :: rest, prevSep =>
    let lowercase := asciiToLower c
    if isAsciiAlphanumeric lowercase then lowercase :: slugifyCore rest false
    else if prevSep then slugifyCore rest prevSep
    else '-' :: slugifyCore rest true

/-- Rust `str::trim_matches('-')`. -/
def trimDashes (l : List Char) : List Char :=
  ((l.dropWhile (fun c => decide (c = '-'))).reverse.dropWhile
    (fun c => decide (c = '-'))).reverse

/-- `slugify_project_name`; `none` models the bad-request error. -/
def slugifyProjectName (name : List Char) : Option (List Char) :=
  let slug := trimDashes (slugifyCore name false)
  if slug = [] then none else some slug

/-- The `while trimmed.ends_with('-') pop` loop. -/
def dropTrailingDashes (l : List Char) : List Char :=
  (l.reverse.dropWhile (fun c => decide (c = '-'))).reverse

/-- `truncate_dns_label`. -/
def truncateDnsLabel (label : List Char) : List Char :=
  let truncated := dropTrailingDashes (label.take 63)
  if truncated = [] then str "project" else truncated

/-- `trim_label_for_suffix`. -/
def trimLabelForSuffix (label : List Char) (suffixLen : Nat) : List Char :=
  let maxPrefixLen := 63 - (suffixLen + 1)
  let trimmed := dropTrailingDashes (label.take (max maxPrefixLen 1))
  if trimmed = [] then str "project" else trimmed

/-- `assigned_project_domain`, with the two `is_project_domain_in_use`
answers supplied by oracles (`inUseFirst` for the plain candidate,
`inUseSecond` for the suffixed one). -/
def assignedProjectDomain (baseDomain : Option (List Char))
    (inUseFirst inUseSecond : Bool) (projectId projectName : List Char) :
    Except DomainError (Option (List Char)) :=
  match baseDomain with
  | none => .ok none
  | some base =>
    match slugifyProjectName projectName with
    | none => .error .badRequest
    | some slug =>
      let label := truncateDnsLabel slug
      let fqdn := label ++ str "." ++ base
      if inUseFirst then
        let compactId := projectId.filter (fun c => decide (c ≠ '-'))
        let suffix := compactId.take 6
        let adjustedLabel := trimLabelForSuffix label suffix.length
        let fqdn2 := adjustedLabel ++ str "-" ++ suffix ++ str "." ++ base
        if inUseSecond then .error .conflict else .ok (some fqdn2)
      else .ok (some fqdn)

/-- Split a domain name into its dot-separated labels. -/
def splitLabels : List Char → List (List Char)
  | [] => [[]]
  | c :: rest =>
    if c = '.' then [] :: splitLabels rest
    else
      match splitLabels rest with
      | [] => [[c]]
      | l :: ls => (c :: l) :: ls

/-- Characters allowed in an assigned label: lowercase ASCII alphanumerics
and the dash. -/
def isLowerAlnumDash (c : Char) : Bool :=
  ('a' ≤ c && c ≤ 'z') || ('0' ≤ c && c ≤ '9') || c = '-'

/-- Lowercase hexadecimal digit (the characters of a UUID besides dashes). -/
def isLowerHexDigit (c : Char) : Bool :=
  ('0' ≤ c && c ≤ '9') || ('a' ≤ c && c ≤ 'f')

/-! ## Port allocation (`orchestrator/projects.rs`, `db/projects.rs`) -/

def BASE_PROJECT_PORT : Int := 3100

inductive AllocError
  | badRequest
  | conflict
  | internalError
deriving DecidableEq

/-- `DbClient::next_available_project_port`: `maxPort` is
`SELECT MAX(port) FROM projects` (`none` when the table is empty). -/
def nextAvailableProjectPort (maxPort : Option Int) : Int :=
  let m := maxPort.getD (BASE_PROJECT_PORT - 1)
  if m < BASE_PROJECT_PORT then BASE_PROJECT_PORT else m + 1

/-- The automatic-allocation `for _ in 0..100` loop of `create_project`:
`db` is `is_project_port_in_use`, `av` is the worker bind probe.  Each
iteration first converts the candidate to `u16` (failure is an internal
error), skips candidates in the DB, takes the first bindable candidate, and
on fuel exhaustion the current (already incremented) candidate is used. -/
def allocLoop (db av : Int → Bool) : Nat → Int → Except AllocError Int
  | 0, candidate => .ok candidate
  | fuel + 1, candidate =>
    if candidate < 0 || 65535 < candidate then .error .internalError
    else if db candidate then allocLoop db av fuel (candidate + 1)
    else if av candidate then .ok candidate
    else allocLoop db av fuel (candidate + 1)

/-- The port-determination phase of `create_project`: `requested` is
`payload.port` (converted from `u16`), `maxPort` feeds
`next_available_project_port`. -/
def determineProjectPort (requested : Option Int) (db av : Int → Bool)
    (maxPort : Option Int) : Except AllocError Int :=
  match requested with
  | some p =>
    if p < BASE_PROJECT_PORT then .error .badRequest
    else if db p then .error .conflict
    else if p < 0 || 65535 < p then .error .badRequest
    else if av p then .ok p
    else .error .conflict
  | none => allocLoop db av 100 (nextAvailableProjectPort maxPort)

/-- What `create_project` does after the port phase: on a port-phase error
the request fails with that status and neither the DB insert nor the worker
call happens; on success the row is inserted with the port, and then the
port is converted to `u16` for the worker call argument. -/
inductive CreateOutcome
  | httpError (e : AllocError)
  | deployed (port : Int)
deriving DecidableEq

/-- `(outcome, rowInserted, workerCalled)` for the port-dependent tail of
`create_project`: after a successful port phase the row is inserted, then
`u16::try_from(project_port)` runs while building the worker call — out of
range fails with an internal error after the insert and before the worker
call — and only a port in `u16` range reaches `call_worker_create_project`. -/
def createProjectPortFlow (requested : Option Int) (db av : Int → Bool)
    (maxPort : Option Int) : CreateOutcome × Bool × Bool :=
  match determineProjectPort requested db av maxPort with
  | .error e => (.httpError e, false, false)
  | .ok p =>
    if p < 0 ∨ 65535 < p then (.httpError .internalError, true, false)
    else (.deployed p, true, true)

/-- A candidate both absent from the DB and reported bindable. -/
def portUsable (db av : Int → Bool) (p : Int) : Prop :=
  db p = false ∧ av p = true

instance (db av : Int → Bool) (p : Int) : Decidable (portUsable db av p) := by
  unfold portUsable; infer_instance

/-! ## SHA-256, HMAC, hex (the `sha2`, `hmac` and `hex` crates) -/

def w32 (n : Nat) : Nat := n % 4294967296

def rotr32 (n x : Nat) : Nat := w32 ((x >>> n) ||| (x <<< (32 - n)))

def bigSigma0 (x : Nat) : Nat := (rotr32 2 x) ^^^ (rotr32 13 x) ^^^ (rotr32 22 x)
def bigSigma1 (x : Nat) : Nat := (rotr32 6 x) ^^^ (rotr32 11 x) ^^^ (rotr32 25 x)
def smallSigma0 (x : Nat) : Nat := (rotr32 7 x) ^^^ (rotr32 18 x) ^^^ (x >>> 3)
def smallSigma1 (x : Nat) : Nat := (rotr32 17 x) ^^^ (rotr32 19 x) ^^^ (x >>> 10)

def chFn (x y z : Nat) : Nat := (x &&& y) ^^^ ((x ^^^ 4294967295) &&& z)
def majFn (x y z : Nat) : Nat := (x &&& y) ^^^ (x &&& z) ^^^ (y &&& z)

def sha256K : List Nat :=
  [1116352408, 1899447441, 3049323471, 3921009573, 961987163, 1508970993,
   2453635748, 2870763221, 3624381080, 310598401, 607225278, 1426881987,
   1925078388, 2162078206, 2614888103, 3248222580, 3835390401, 4022224774,
   264347078, 604807628, 770255983, 1249150122, 1555081692, 1996064986,
   2554220882, 2821834349, 2952996808, 3210313671, 3336571891, 3584528711,
   113926993, 338241895, 666307205, 773529912, 1294757372, 1396182291,
   1695183700, 1986661051, 2177026350, 2456956037, 2730485921, 2820302411,
   3259730800, 3345764771, 3516065817, 3600352804, 4094571909, 275423344,
   430227734, 506948616, 659060556, 883997877, 958139571, 1322822218,
   1537002063, 1747873779, 1955562222, 2024104815, 2227730452, 2361852424,
   2428436474, 2756734187, 3204031479, 3329325298]

/-- Big-endian 32-bit words from a 64-byte block. -/
def blockWords : List Nat → List Nat
  | b0 :: b1 :: b2 :: b3 :: rest =>
    (((b0 * 256 + b1) * 256 + b2) * 256 + b3) :: blockWords rest
  | _ => []

/-- Message-schedule extension; `acc` holds the previous words in reverse
order (head is the most recent word). -/
def extendWords : Nat → List Nat → List Nat
  | 0, acc => acc.reverse
  | n + 1, acc =>
    let w2 := acc.getD 1 0
    let w7 := acc.getD 6 0
    let w15 := acc.getD 14 0
    let w16 := acc.getD 15 0
    let w := w32 (smallSigma1 w2 + w7 + smallSigma0 w15 + w16)
    extendWords n (w :: acc)

structure Sha256State where
  a : Nat
  b : Nat
  c : Nat
  d : Nat
  e : Nat
  f : Nat
  g : Nat
  h : Nat
deriving DecidableEq

def sha256Round (st : Sha256State) (kw : Nat × Nat) : Sha256State :=
  let t1 := w32 (st.h + bigSigma1 st.e + chFn st.e st.f st.g + kw.1 + kw.2)
  let t2 := w32 (bigSigma0 st.a + majFn st.a st.b st.c)
  ⟨w32 (t1 + t2), st.a, st.b, st.c, w32 (st.d + t1), st.e, st.f, st.g⟩

def sha256Compress (st : Sha256State) (block : List Nat) : Sha256State :=
  let ws := extendWords 48 (blockWords block).reverse
  let fin := (sha256K.zip ws).foldl sha256Round st
  ⟨w32 (st.a + fin.a), w32 (st.b + fin.b), w32 (st.c + fin.c), w32 (st.d + fin.d),
   w32 (st.e + fin.e), w32 (st.f + fin.f), w32 (st.g + fin.g), w32 (st.h + fin.h)⟩

def sha256Init : Sha256State :=
  ⟨1779033703, 3144134277, 1013904242, 2773480762, 1359893119, 2600822924, 528734635, 1541459225⟩

/-- Merkle–Damgård padding: a `0x80` byte, zeros, and the 64-bit big-endian
bit length. -/
def sha256Pad (msg : List Nat) : List Nat :=
  let len := msg.length
  let bitLen := len * 8
  let zeros := (64 + 56 - (len + 1) % 64) % 64
  msg ++ [0x80] ++ List.replicate zeros 0 ++
    [bitLen >>> 56 % 256, bitLen >>> 48 % 256, bitLen >>> 40 % 256, bitLen >>> 32 % 256,
     bitLen >>> 24 % 256, bitLen >>> 16 % 256, bitLen >>> 8 % 256, bitLen % 256]

def chunksOf64 : Nat → List Nat → List (List Nat)
  | 0, _ => []
  | _, [] => []
  | fuel + 1, l => l.take 64 :: chunksOf64 fuel (l.drop 64)

def bytesOfWord (w : Nat) : List Nat :=
  [w >>> 24 % 256, w >>> 16 % 256, w >>> 8 % 256, w % 256]

/-- SHA-256 digest (32 bytes) of a byte string. -/
def sha256 (msg : List Nat) : List Nat :=
  let padded := sha256Pad msg
  let final := (chunksOf64 padded.length padded).foldl sha256Compress sha256Init
  bytesOfWord final.a ++ bytesOfWord final.b ++ bytesOfWord final.c ++ bytesOfWord final.d ++
    bytesOfWord final.e ++ bytesOfWord final.f ++ bytesOfWord final.g ++ bytesOfWord final.h

/-- HMAC-SHA256 (RFC 2104, block size 64). -/
def hmacSha256 (key msg : List Nat) : List Nat :=
  let k0 := if 64 < key.length then sha256 key else key
  let kPadded := k0 ++ List.replicate (64 - k0.length) 0
  let ipadKey := kPadded.map (fun b => b ^^^ 0x36)
  let opadKey := kPadded.map (fun b => b ^^^ 0x5c)
  sha256 (opadKey ++ sha256 (ipadKey ++ msg))

def hexDigitChar (n : Nat) : Char :=
  if n < 10 then Char.ofNat (48 + n) else Char.ofNat (87 + n)

/-- `hex::encode` (lowercase). -/
def hexEncode (bytes : List Nat) : List Char :=
  bytes.flatMap (fun b => [hexDigitChar (b / 16), hexDigitChar (b % 16)])

/-- Value of one hex digit, either case (`hex::decode` accepts both). -/
def hexDigitValue (c : Char) : Option Nat :=
  if '0' ≤ c && c ≤ '9' then some (c.toNat - 48)
  else if 'a' ≤ c && c ≤ 'f' then some (c.toNat - 87)
  else if 'A' ≤ c && c ≤ 'F' then some (c.toNat - 55)
  else none

/-- `hex::decode`: even length, valid digits, case-insensitive. -/
def hexDecode : List Char → Option (List Nat)
  | [] => some []
  | c1 :: c2 :: rest =>
    match hexDigitValue c1, hexDigitValue c2, hexDecode rest with
    | some hi, some lo, some bs => some ((hi * 16 + lo) :: bs)
    | _, _, _ => none
  | _ => none

/-- Uppercase a hex string. -/
def hexUpper (s : List Char) : List Char :=
  s.map (fun c => if 'a' ≤ c && c ≤ 'z' then Char.ofNat (c.toNat - 32) else c)

/-! ## Signature middleware (`cluster/signature.rs`) -/

def MAX_BODY_BYTES : Nat := 1024 * 1024
def MAX_TIMESTAMP_AGE_SECONDS : Int := 30

/-- Parse a decimal `i64` (Rust `str::parse::<i64>`): optional sign, at
least one digit, and the value within the `i64` range. -/
def parseI64 (s : List Char) : Option Int :=
  let (negative, digits) :=
    match s with
    | '-' :: rest => (true, rest)
    | '+' :: rest => (false, rest)
    | _ => (false, s)
  match parseNatDigits digits with
  | none => none
  | some n =>
    if negative then
      if n ≤ 9223372036854775808 then some (-(n : Int)) else none
    else
      if n ≤ 9223372036854775807 then some (n : Int) else none

/-- UTF-8 bytes of an ASCII string (`str::as_bytes` for the ASCII header
values that reach the MAC computation). -/
def asciiBytes (s : List Char) : List Nat := s.map Char.toNat

inductive VerifyOutcome
  | accepted
  | unauthorized
  | badRequest
deriving DecidableEq

/-- An incoming signed request: each header is `none` when missing or not
convertible to a string, and `body` is the raw byte stream. -/
structure ClusterRequest where
  signatureHeader : Option (List Char)
  timestampHeader : Option (List Char)
  serverIdHeader : Option (List Char)
  body : List Nat

/-- `validate_timestamp`. -/
def validateTimestamp (timestamp : List Char) (now : Int) : Bool :=
  match parseI64 timestamp with
  | none => false
  | some ts => !(MAX_TIMESTAMP_AGE_SECONDS < now - ts)

/-- `verify_cluster_signature`: header extraction, timestamp freshness,
bounded body read, secret lookup, hex decode, HMAC comparison — in program
order.  `lookupSecret` is `DbClient::get_server_secret` (the DB error
branch is out of scope: a stored-or-absent answer is assumed). -/
def verifyClusterSignature (lookupSecret : List Char → Option (List Nat))
    (now : Int) (req : ClusterRequest) : VerifyOutcome :=
  match req.signatureHeader with
  | none => .unauthorized
  | some signature =>
    match req.timestampHeader with
    | none => .unauthorized
    | some timestamp =>
      match req.serverIdHeader with
      | none => .unauthorized
      | some serverId =>
        if !validateTimestamp timestamp now then .unauthorized
        else if MAX_BODY_BYTES < req.body.length then .badRequest
        else
          match lookupSecret serverId with
          | none => .unauthorized
          | some secret =>
            match hexDecode signature with
            | none => .unauthorized
            | some signatureBytes =>
              if signatureBytes = hmacSha256 secret (req.body ++ asciiBytes timestamp) then
                .accepted
              else .unauthorized

/-! ## Monitored-project registration (`worker/handlers.rs`) -/

structure MonitoredProject where
  serviceName : List Char
  port : Nat
  scaleToZero : Bool
deriving DecidableEq

/-- The fields of `WorkerCreateProjectRequest` (there is no scale-to-zero
field a caller could set). -/
structure WorkerCreateProjectReq where
  projectId : List Char
  repoUrl : List Char
  branch : List Char
  buildCommand : List Char
  installCommand : List Char
  runCommand : List Char
  outputDirectory : List Char
  port : Nat
  domain : Option (List Char)
  tlsEmail : Option (List Char)
  envVars : List (List Char × List Char)

def monitoredServiceName (projectId : List Char) : List Char :=
  str "nanoscale-" ++ projectId ++ str ".service"

/-- The monitored-set update `internal_projects` performs after a
successful pipeline run: drop any stale entry with the same service name,
then push the fresh entry with `scale_to_zero: true`. -/
def registerMonitoredProject (projects : List MonitoredProject)
    (projectId : List Char) (port : Nat) : List MonitoredProject :=
  let name := monitoredServiceName projectId
  (projects.filter (fun p => decide (p.serviceName ≠ name))) ++
    [⟨name, port, true⟩]

/-- The same update as a function of the whole request, as the handler
performs it. -/
def registerFromRequest (projects : List MonitoredProject)
    (req : WorkerCreateProjectReq) : List MonitoredProject :=
  registerMonitoredProject projects req.projectId req.port

/-- The system-control shapes the gate actually accepts, stated
declaratively: `daemon-reload`; `enable|disable --now` on a
`nanoscale-*.service` unit only; `status nanoscale-agent`;
`show --property=<P> [--value]` on a `nanoscale-*.service` unit only; and
`start|stop|restart` on any `nanoscale-*` name. -/
def SystemctlShapeLive (args : List (List Char)) : Prop :=
  args = [str "daemon-reload"]
  ∨ (∃ v u, (v = str "enable" ∨ v = str "disable")
      ∧ strStartsWith u (str "nanoscale-") = true
      ∧ strEndsWith u (str ".service") = true
      ∧ args = [v, str "--now", u])
  ∨ args = [str "status", str "nanoscale-agent"]
  ∨ (∃ p u, strStartsWith p (str "--property=") = true
      ∧ strStartsWith u (str "nanoscale-") = true
      ∧ strEndsWith u (str ".service") = true
      ∧ args = [str "show", p, str "--value", u])
  ∨ (∃ p u, strStartsWith p (str "--property=") = true
      ∧ strStartsWith u (str "nanoscale-") = true
      ∧ strEndsWith u (str ".service") = true
      ∧ args = [str "show", p, u])
  ∨ (∃ v u, (v = str "start" ∨ v = str "stop" ∨ v = str "restart")
      ∧ strStartsWith u (str "nanoscale-") = true
      ∧ args = [v, u])

/-- The entries of the store holding value `v`. -/
def valueEntries (v : List Char) (s : TokenState) : TokenState :=
  s.filter (fun e => decide (e.1 = v))

/-- The value-`v` portion of the store is empty or the single entry
`(v, x)`. -/
def VEntSub (v : List Char) (x : Nat) (s : TokenState) : Prop :=
  valueEntries v s = [] ∨ valueEntries v s = [(v, x)]

/-- Project ids as produced by the orchestrator (UUID strings): ASCII
alphanumerics and dashes. -/
def goodProjectId (id : List Char) : Prop :=
  ∀ c ∈ id, isAsciiAlphanumeric c = true ∨ c = '-'

/-! ## Helper lemmas -/

lemma strStartsWith_append_self (p rest : List Char) :
    strStartsWith (p ++ rest) p = true := by
  simp [strStartsWith, List.isPrefixOf_iff_prefix]

lemma strEndsWith_append_self (s p : List Char) :
    strEndsWith (s ++ p) p = true := by
  simp [strEndsWith, List.reverse_append, List.isPrefixOf_iff_prefix]

lemma not_endsWith_socket_service (x : List Char) :
    strEndsWith (x ++ str ".socket") (str ".service") = false := by
  rw [Bool.eq_false_iff]
  intro h
  rw [strEndsWith, List.reverse_append, List.isPrefixOf_iff_prefix] at h
  rw [show (str ".socket").reverse = 't' :: str "ekcos." from rfl,
    show (str ".service").reverse = 'e' :: str "civres." from rfl] at h
  rw [List.cons_append, List.cons_prefix_cons] at h
  exact absurd h.1 (by decide)

lemma validateSystemctl_enable_socket (u : List Char) :
    validateSystemctlArgs [str "enable", str "--now", u ++ str ".socket"] = false := by
  unfold validateSystemctlArgs
  simp +decide [not_endsWith_socket_service]

lemma validateChown_two_args (a b : List Char) :
    validateChownArgs [a, b] = false := rfl

lemma validateCommandArgs_systemctl (args : List (List Char)) :
    validateCommandArgs SYSTEMCTL_BIN args = validateSystemctlArgs args := rfl

lemma validateCommandArgs_service (args : List (List Char)) :
    validateCommandArgs SERVICE_BIN args = validateServiceArgs args := rfl

lemma validateCommandArgs_userdel (args : List (List Char)) :
    validateCommandArgs USERDEL_BIN args = validateUserdelArgs args := rfl

lemma validateCommandArgs_rm (args : List (List Char)) :
    validateCommandArgs RM_BIN args = validateRmArgs args := rfl

lemma validateCommandArgs_chown (args : List (List Char)) :
    validateCommandArgs CHOWN_BIN args = validateChownArgs args := rfl

lemma gateAccepts_systemctl (args : List (List Char)) :
    gateAccepts SYSTEMCTL_BIN args = validateSystemctlArgs args := by
  rw [gateAccepts, validateCommandArgs_systemctl,
    show decide (SYSTEMCTL_BIN ∈ allowedBinaries) = true from by decide, Bool.true_and]

lemma gateAccepts_service (args : List (List Char)) :
    gateAccepts SERVICE_BIN args = validateServiceArgs args := by
  rw [gateAccepts, validateCommandArgs_service,
    show decide (SERVICE_BIN ∈ allowedBinaries) = true from by decide, Bool.true_and]

lemma gateAccepts_userdel (args : List (List Char)) :
    gateAccepts USERDEL_BIN args = validateUserdelArgs args := by
  rw [gateAccepts, validateCommandArgs_userdel,
    show decide (USERDEL_BIN ∈ allowedBinaries) = true from by decide, Bool.true_and]

lemma gateAccepts_rm (args : List (List Char)) :
    gateAccepts RM_BIN args = validateRmArgs args := by
  rw [gateAccepts, validateCommandArgs_rm,
    show decide (RM_BIN ∈ allowedBinaries) = true from by decide, Bool.true_and]

lemma gateAccepts_chown (args : List (List Char)) :
    gateAccepts CHOWN_BIN args = validateChownArgs args := by
  rw [gateAccepts, validateCommandArgs_chown,
    show decide (CHOWN_BIN ∈ allowedBinaries) = true from by decide, Bool.true_and]

/-! ## Claim theorems -/

/-- C1: the claim that every privileged-gate invocation reachable from the
deployment pipeline passes the gate's argument validation is wrong on the
code: the unit installer's `chown root:root <unit file>` calls and its
`systemctl enable --now nanoscale-<id>.socket` call are rejected by
`validate_chown_args` (which requires `-R nanoscale-<id>:nanoscale-<id>`
on a sites path) and `validate_systemctl_args` (whose enable/disable shape
accepts only `.service` units), so `generate_and_install` always fails at
its first chown.  This contradicts the documented allowlist shapes, which
the installer was written against. -/
theorem C1_unit_installer_rejected_by_gate :
    ∀ projectId : List Char,
      gateAccepts CHOWN_BIN
        [str "root:root",
         str "/etc/systemd/system/" ++ (str "nanoscale-" ++ projectId) ++ str ".service"] = false
      ∧ gateAccepts SYSTEMCTL_BIN
        [str "enable", str "--now", (str "nanoscale-" ++ projectId) ++ str ".socket"] = false
      ∧ (CHOWN_BIN,
          [str "root:root",
           str "/etc/systemd/system/" ++ (str "nanoscale-" ++ projectId) ++ str ".service"])
          ∈ systemdInstallGateCalls projectId
      ∧ (SYSTEMCTL_BIN,
          [str "enable", str "--now", (str "nanoscale-" ++ projectId) ++ str ".socket"])
          ∈ systemdInstallGateCalls projectId
      ∧ systemdInstallAllCallsAccepted projectId = false := by
  intro projectId
  have hchown : gateAccepts CHOWN_BIN
      [str "root:root",
       str "/etc/systemd/system/" ++ (str "nanoscale-" ++ projectId) ++ str ".service"] = false := by
    rw [gateAccepts_chown, validateChown_two_args]
  have hsock : gateAccepts SYSTEMCTL_BIN
      [str "enable", str "--now", (str "nanoscale-" ++ projectId) ++ str ".socket"] = false := by
    rw [gateAccepts_systemctl, validateSystemctl_enable_socket]
  have hmem1 : (CHOWN_BIN,
      [str "root:root",
       str "/etc/systemd/system/" ++ (str "nanoscale-" ++ projectId) ++ str ".service"])
      ∈ systemdInstallGateCalls projectId := by
    rw [systemdInstallGateCalls]
    exact List.mem_iff_get.mpr ⟨⟨3, by simp⟩, rfl⟩
  have hmem2 : (SYSTEMCTL_BIN,
      [str "enable", str "--now", (str "nanoscale-" ++ projectId) ++ str ".socket"])
      ∈ systemdInstallGateCalls projectId := by
    rw [systemdInstallGateCalls]
    exact List.mem_iff_get.mpr ⟨⟨8, by simp⟩, rfl⟩
  refine ⟨hchown, hsock, hmem1, hmem2, ?_⟩
  rw [systemdInstallAllCallsAccepted, List.all_eq_false]
  refine ⟨_, hmem1, ?_⟩
  intro hcontra
  rw [hchown] at hcontra
  exact Bool.noConfusion hcontra

/-- C10: on the success path of the worker create-project handler, the
monitored set ends with exactly one entry for the project's service name,
that entry has `scale_to_zero = true` and carries the request's port, and
the registration depends on nothing in the request but the project id and
port — there is no field through which a caller could opt out. -/
theorem C10_registration_forces_scale_to_zero :
    ∀ (projects : List MonitoredProject) (req : WorkerCreateProjectReq),
      (registerFromRequest projects req).filter
          (fun p => decide (p.serviceName = monitoredServiceName req.projectId))
        = [⟨monitoredServiceName req.projectId, req.port, true⟩]
      ∧ (∀ p ∈ registerFromRequest projects req,
          p.serviceName = monitoredServiceName req.projectId → p.scaleToZero = true)
      ∧ (⟨monitoredServiceName req.projectId, req.port, true⟩ : MonitoredProject)
          ∈ registerFromRequest projects req
      ∧ registerFromRequest projects req
          = registerMonitoredProject projects req.projectId req.port := by
  intro projects req
  refine ⟨?_, ?_, ?_, rfl⟩
  · rw [registerFromRequest, registerMonitoredProject, List.filter_append,
      List.filter_filter]
    simp
  · intro p hp hname
    rw [registerFromRequest, registerMonitoredProject, List.mem_append] at hp
    rcases hp with hp | hp
    · rcases List.mem_filter.mp hp with ⟨_, hne⟩
      simp at hne
      exact absurd hname hne
    · simp at hp
      rw [hp]
  · rw [registerFromRequest, registerMonitoredProject]
    simp

/-! ### Port allocation lemmas -/

lemma allocLoop_step (db av : Int → Bool) (n : Nat) (cand : Int) :
    allocLoop db av (n + 1) cand =
      (if cand < 0 || 65535 < cand then .error .internalError
       else if db cand then allocLoop db av n (cand + 1)
       else if av cand then .ok cand
       else allocLoop db av n (cand + 1)) := rfl

/-- Full characterization of the allocation loop on in-range candidates:
either some candidate among the first `fuel` is usable (and the first such
is returned), or none is and the loop falls through to `cand + fuel`. -/
lemma allocLoop_characterization (db av : Int → Bool) :
    ∀ (fuel : Nat) (cand : Int), 0 ≤ cand →
      (∀ i : Nat, i < fuel → cand + i ≤ 65535) →
      (∃ i : Nat, i < fuel ∧ portUsable db av (cand + i) ∧
        (∀ j : Nat, j < i → ¬ portUsable db av (cand + j)) ∧
        allocLoop db av fuel cand = .ok (cand + i))
      ∨ ((∀ i : Nat, i < fuel → ¬ portUsable db av (cand + i)) ∧
        allocLoop db av fuel cand = .ok (cand + fuel)) := by
  intro fuel
  induction fuel with
  | zero =>
    intro cand h0 hb
    right
    exact ⟨fun i hi => absurd hi (Nat.not_lt_zero i), by simp [allocLoop]⟩
  | succ n ih =>
    intro cand h0 hb
    have hc : cand ≤ 65535 := by
      have := hb 0 (Nat.succ_pos n)
      simpa using this
    have hcond : (cand < 0 || 65535 < cand) = false := by
      simp only [Bool.or_eq_false_iff, decide_eq_false_iff_not]
      constructor <;> omega
    have harith : ∀ i : Nat, cand + 1 + (i : Int) = cand + ((i + 1 : Nat) : Int) := by
      intro i; push_cast; ring
    have hbshift : ∀ i : Nat, i < n → cand + 1 + (i : Int) ≤ 65535 := by
      intro i hi
      rw [harith]
      exact hb (i + 1) (by omega)
    cases hdb : db cand with
    | true =>
      have hnotUs : ¬ portUsable db av cand := fun hus => by
        rw [portUsable, hdb] at hus
        exact Bool.noConfusion hus.1
      have hrec := ih (cand + 1) (by omega) hbshift
      have hloop : allocLoop db av (n + 1) cand = allocLoop db av n (cand + 1) := by
        rw [allocLoop_step, hcond, if_neg (by simp), hdb, if_pos rfl]
      rcases hrec with ⟨i, hi, hus, hmin, heq⟩ | ⟨hnone, heq⟩
      · left
        refine ⟨i + 1, by omega, by rwa [harith] at hus, ?_, ?_⟩
        · intro j hj
          match j with
          | 0 => simpa using hnotUs
          | k + 1 =>
            have := hmin k (by omega)
            rwa [harith] at this
        · rw [hloop, heq, harith]
      · right
        refine ⟨?_, ?_⟩
        · intro i hi
          match i with
          | 0 => simpa using hnotUs
          | k + 1 =>
            have := hnone k (by omega)
            rwa [harith] at this
        · rw [hloop, heq, harith]
    | false =>
      cases hav : av cand with
      | true =>
        left
        refine ⟨0, Nat.succ_pos n, ?_, fun j hj => absurd hj (Nat.not_lt_zero j), ?_⟩
        · rw [portUsable]
          constructor
          · simpa using hdb
          · simpa using hav
        · rw [allocLoop_step, hcond, if_neg (by simp), hdb, if_neg (by simp), hav,
            if_pos rfl]
          simp
      | false =>
        have hnotUs : ¬ portUsable db av cand := fun hus => by
          rw [portUsable, hav] at hus
          exact Bool.noConfusion hus.2
        have hrec := ih (cand + 1) (by omega) hbshift
        have hloop : allocLoop db av (n + 1) cand = allocLoop db av n (cand + 1) := by
          rw [allocLoop_step, hcond, if_neg (by simp), hdb, if_neg (by simp), hav,
            if_neg (by simp)]
        rcases hrec with ⟨i, hi, hus, hmin, heq⟩ | ⟨hnone, heq⟩
        · left
          refine ⟨i + 1, by omega, by rwa [harith] at hus, ?_, ?_⟩
          · intro j hj
            match j with
            | 0 => simpa using hnotUs
            | k + 1 =>
              have := hmin k (by omega)
              rwa [harith] at this
          · rw [hloop, heq, harith]
        · right
          refine ⟨?_, ?_⟩
          · intro i hi
            match i with
            | 0 => simpa using hnotUs
            | k + 1 =>
              have := hnone k (by omega)
              rwa [harith] at this
          · rw [hloop, heq, harith]

lemma nextAvailableProjectPort_ge (m : Option Int) :
    3100 ≤ nextAvailableProjectPort m := by
  rw [nextAvailableProjectPort, BASE_PROJECT_PORT]
  split <;> omega

/-- C5 counterexample: with no port in the DB and the worker reporting
every candidate unbindable, the 100-candidate loop exhausts and the
request proceeds with port 3200 — a deployment, not a conflict error, and
the project row is inserted and the worker create-project call is made. -/
theorem C5_counterexample_exhaustion_deploys :
    determineProjectPort none (fun _ => false) (fun _ => false) none = .ok 3200
    ∧ createProjectPortFlow none (fun _ => false) (fun _ => false) none
        = (.deployed 3200, true, true)
    ∧ (CreateOutcome.deployed 3200 ≠ .httpError .conflict) := by
  exact ⟨by decide, by decide, by decide⟩

/-- C5 (amended): when the caller supplies no port the allocator starts
from max(port)+1 in the DB (or 3100 when the table is empty or below
base) and tries at most 100 candidates, skipping ports in the DB or
unbindable on the worker; but when none of the 100 candidates is usable
the request does not fail with a conflict: the loop falls through to
start+100 and the project row is inserted with that unverified port.  The
worker create-project call is then made with it iff it fits in `u16`
(start+100 ≤ 65535); for start = 65436 (DB max port 65435) the conversion
between the insert and the worker call fails with an internal error, so
the row is inserted but the worker is never called — still no conflict. -/
theorem C5_amended_exhaustion_uses_fallthrough_port :
    nextAvailableProjectPort none = 3100
    ∧ (∀ m : Int, m < 3100 → nextAvailableProjectPort (some m) = 3100)
    ∧ (∀ m : Int, 3100 ≤ m → nextAvailableProjectPort (some m) = m + 1)
    ∧ createProjectPortFlow none (fun _ => false) (fun _ => false) (some 65435)
        = (.httpError .internalError, true, false)
    ∧ (∀ (db av : Int → Bool) (maxPort : Option Int),
        (∀ i : Nat, i < 100 → nextAvailableProjectPort maxPort + i ≤ 65535) →
        (∀ i : Nat, i < 100 →
          ¬ portUsable db av (nextAvailableProjectPort maxPort + i)) →
        determineProjectPort none db av maxPort
            = .ok (nextAvailableProjectPort maxPort + 100)
          ∧ createProjectPortFlow none db av maxPort
              = (if nextAvailableProjectPort maxPort + 100 ≤ 65535 then
                   (.deployed (nextAvailableProjectPort maxPort + 100), true, true)
                 else (.httpError .internalError, true, false))) := by
  refine ⟨by decide, ?_, ?_, by decide, ?_⟩
  · intro m hm
    rw [nextAvailableProjectPort]
    simp only [Option.getD_some]
    rw [if_pos (by rw [BASE_PROJECT_PORT]; omega)]
    rfl
  · intro m hm
    rw [nextAvailableProjectPort]
    simp only [Option.getD_some]
    rw [if_neg (by rw [BASE_PROJECT_PORT]; omega)]
  · intro db av maxPort hbound hnone
    have hge := nextAvailableProjectPort_ge maxPort
    have hchar := allocLoop_characterization db av 100 (nextAvailableProjectPort maxPort)
      (by omega) hbound
    rcases hchar with ⟨i, hi, hus, _, _⟩ | ⟨_, heq⟩
    · exact absurd hus (hnone i hi)
    · have hdet : determineProjectPort none db av maxPort
          = .ok (nextAvailableProjectPort maxPort + 100) := by
        rw [determineProjectPort]; exact heq
      refine ⟨hdet, ?_⟩
      rw [createProjectPortFlow, hdet]
      dsimp only
      rcases le_or_lt (nextAvailableProjectPort maxPort + 100) 65535 with hle | hgt
      · rw [if_pos hle, if_neg (by omega)]
      · rw [if_neg (show ¬ (nextAvailableProjectPort maxPort + 100 ≤ 65535) from by omega),
          if_pos (Or.inr hgt)]

/-- C5 witness: the amended fall-through behaviour at a concrete instance
(all 100 candidates unbindable from a fresh DB): the loop exhausts, the
port phase returns 3200 and the flow deploys with row inserted and the
worker called, since 3200 fits in `u16`. -/
theorem C5_amended_witness :
    determineProjectPort none (fun _ => false) (fun _ => false) none
        = .ok (nextAvailableProjectPort none + 100)
    ∧ createProjectPortFlow none (fun _ => false) (fun _ => false) none
        = (if nextAvailableProjectPort none + 100 ≤ 65535 then
             (.deployed (nextAvailableProjectPort none + 100), true, true)
           else (.httpError .internalError, true, false)) :=
  C5_amended_exhaustion_uses_fallthrough_port.2.2.2.2 (fun _ => false) (fun _ => false) none
    (by intro i hi; rw [show nextAvailableProjectPort none = 3100 from by decide]; omega)
    (by
      intro i hi hus
      rw [portUsable] at hus
      exact Bool.noConfusion hus.2)

/-- C6 counterexample: the orchestrator accepts a caller-supplied port of
60000 (it is ≥ 3100, unused in the DB and bindable on the worker), yet
60000 + 10000 exceeds 65535 — the claimed backend-port bound is not
enforced by the allocator; only the worker's unit installer fails on it. -/
theorem C6_counterexample_port_60000_accepted :
    determineProjectPort (some 60000) (fun _ => false) (fun _ => true) none = .ok 60000
    ∧ createProjectPortFlow (some 60000) (fun _ => false) (fun _ => true) none
        = (.deployed 60000, true, true)
    ∧ ¬((60000 : Int) + 10000 ≤ 65535)
    ∧ backendPort 60000 = .error (str "backend port exceeds 65535") := by
  exact ⟨by decide, by decide, by decide, by decide⟩

/-- C6 (amended): a caller-supplied port accepted by the allocator is
≥ 3100, absent from the DB and reported bindable; an automatically
allocated port has these properties whenever the 100-candidate loop finds
a usable candidate; the bound P + 10000 ≤ 65535 is not checked by the
allocator at all — it is enforced only by the worker's `backend_port`
derivation at unit-install time. -/
theorem C6_amended_allocator_guarantees :
    (∀ (p : Int) (db av : Int → Bool) (m : Option Int) (q : Int),
      determineProjectPort (some p) db av m = .ok q →
      q = p ∧ 3100 ≤ p ∧ db p = false ∧ av p = true)
    ∧ (∀ (db av : Int → Bool) (maxPort : Option Int) (i : Nat),
        i < 100 →
        (∀ k : Nat, k < 100 → nextAvailableProjectPort maxPort + k ≤ 65535) →
        portUsable db av (nextAvailableProjectPort maxPort + i) →
        (∀ j : Nat, j < i → ¬ portUsable db av (nextAvailableProjectPort maxPort + j)) →
        determineProjectPort none db av maxPort
            = .ok (nextAvailableProjectPort maxPort + i)
          ∧ 3100 ≤ nextAvailableProjectPort maxPort + i
          ∧ db (nextAvailableProjectPort maxPort + i) = false
          ∧ av (nextAvailableProjectPort maxPort + i) = true)
    ∧ (∀ p : Nat, 65535 < p + 10000 →
        backendPort p = .error (str "backend port exceeds 65535"))
    ∧ (∀ p : Nat, p + 10000 ≤ 65535 → backendPort p = .ok (p + 10000)) := by
  refine ⟨?_, ?_, ?_, ?_⟩
  · intro p db av m q h
    rw [determineProjectPort, BASE_PROJECT_PORT] at h
    split_ifs at h with h1 h2 h3 h4
    exact ⟨(Except.ok.inj h).symm, by omega,
      by rwa [Bool.not_eq_true] at h2, h4⟩
  · intro db av maxPort i hi hbound hus hmin
    have hge := nextAvailableProjectPort_ge maxPort
    have hchar := allocLoop_characterization db av 100 (nextAvailableProjectPort maxPort)
      (by omega) hbound
    rcases hchar with ⟨i0, hi0, hus0, hmin0, heq⟩ | ⟨hnone, _⟩
    · have hii : i = i0 := by
        rcases Nat.lt_trichotomy i i0 with hlt | heqv | hgt
        · exact absurd hus (hmin0 i hlt)
        · exact heqv
        · exact absurd hus0 (hmin i0 hgt)
      subst hii
      rcases hus with ⟨hdb, hav⟩
      refine ⟨?_, by omega, hdb, hav⟩
      rw [determineProjectPort]
      exact heq
    · exact absurd hus (hnone i hi)
  · intro p hp
    rw [backendPort, if_pos hp]
  · intro p hp
    rw [backendPort, if_neg (by omega)]

/-- C6 witness: the amended guarantees at concrete instances — a supplied
port 4000 accepted with all three properties, the automatic loop finding
candidate 3100 immediately, and the worker-side backend-port bound firing
at 60000 and passing at 3100. -/
theorem C6_amended_witness :
    ((4000 : Int) = 4000 ∧ (3100 : Int) ≤ 4000
      ∧ (fun _ : Int => false) 4000 = false ∧ (fun _ : Int => true) 4000 = true)
    ∧ determineProjectPort none (fun _ => false) (fun _ => true) none
        = .ok (nextAvailableProjectPort none + 0)
    ∧ backendPort 60000 = .error (str "backend port exceeds 65535")
    ∧ backendPort 3100 = .ok (3100 + 10000) := by
  refine ⟨?_, ?_, ?_, ?_⟩
  · exact C6_amended_allocator_guarantees.1 4000 (fun _ => false) (fun _ => true) none 4000
      (by decide)
  · exact (C6_amended_allocator_guarantees.2.1 (fun _ => false) (fun _ => true) none 0
      (by omega)
      (by intro k hk; rw [show nextAvailableProjectPort none = 3100 from by decide]; omega)
      (by rw [portUsable]; exact ⟨rfl, rfl⟩)
      (fun j hj => absurd hj (Nat.not_lt_zero j))).1
  · exact C6_amended_allocator_guarantees.2.2.1 60000 (by omega)
  · exact C6_amended_allocator_guarantees.2.2.2 3100 (by omega)

/-! ### Systemctl shape characterization (C3) -/

/-- C3 counterexample: the gate rejects `enable --now nanoscale-p1.socket`
and `show --property=NConnections --value nanoscale-p1.socket` (the claim
says both unit kinds are accepted), while it accepts the undocumented
shape `status nanoscale-agent` (the claim says everything outside the
listed shapes is rejected). -/
theorem C3_counterexample_socket_and_status :
    gateAccepts SYSTEMCTL_BIN [str "enable", str "--now", str "nanoscale-p1.socket"] = false
    ∧ gateAccepts SYSTEMCTL_BIN
        [str "show", str "--property=NConnections", str "--value", str "nanoscale-p1.socket"]
        = false
    ∧ gateAccepts SYSTEMCTL_BIN [str "status", str "nanoscale-agent"] = true := by
  exact ⟨by decide, by decide, by decide⟩

/-- C3 (amended): the gate accepts exactly these system-control shapes —
`daemon-reload`; `enable|disable --now <unit>` for `nanoscale-*.service`
units only (not `.socket`); `status nanoscale-agent`;
`show --property=<P> --value <unit>` and `show --property=<P> <unit>` for
`nanoscale-*.service` units only; `start|stop|restart nanoscale-*` — and
rejects every binary outside the fixed nine-element allowlist. -/
theorem C3_amended_systemctl_characterization :
    (∀ args : List (List Char),
      validateSystemctlArgs args = true ↔ SystemctlShapeLive args)
    ∧ (∀ (binary : List Char) (args : List (List Char)),
        binary ∉ allowedBinaries → gateAccepts binary args = false)
    ∧ (∀ args : List (List Char),
        gateAccepts SYSTEMCTL_BIN args = validateSystemctlArgs args) := by
  refine ⟨?_, ?_, gateAccepts_systemctl⟩
  · intro args
    rcases args with _ | ⟨a, _ | ⟨b, _ | ⟨c, _ | ⟨d, _ | ⟨e, rest⟩⟩⟩⟩⟩
    · simp [validateSystemctlArgs, SystemctlShapeLive]
    · rw [validateSystemctlArgs, SystemctlShapeLive]
      split_ifs with h1 <;> simp_all
    · rw [validateSystemctlArgs, SystemctlShapeLive]
      split_ifs with h1 h2 h3 h4 <;> aesop
    · rw [validateSystemctlArgs, SystemctlShapeLive]
      split_ifs with h1 h2 h3 h4 h5 <;> aesop
    · rw [validateSystemctlArgs, SystemctlShapeLive]
      split_ifs with h1 h2 h3 h4 h5 h6 <;> aesop
    · simp [validateSystemctlArgs, SystemctlShapeLive]
  · intro binary args hmem
    rw [gateAccepts, decide_eq_false hmem, Bool.false_and]

/-- C3 witness: the characterization applied at concrete inputs — the
stop shape accepted via the declarative description, and a non-allowlisted
binary rejected. -/
theorem C3_amended_witness :
    validateSystemctlArgs [str "stop", str "nanoscale-p1.service"] = true
    ∧ gateAccepts (str "/bin/bash") [str "-c", str "id"] = false := by
  constructor
  · exact (C3_amended_systemctl_characterization.1
      [str "stop", str "nanoscale-p1.service"]).mpr
      (Or.inr (Or.inr (Or.inr (Or.inr (Or.inr
        ⟨str "stop", str "nanoscale-p1.service",
          Or.inr (Or.inl rfl), by decide, rfl⟩)))))
  · exact C3_amended_systemctl_characterization.2.1 (str "/bin/bash")
      [str "-c", str "id"] (by decide)

/-! ### Idle monitor lemmas (C4) -/

lemma validateSystemctl_show_value_socket (p u : List Char) :
    validateSystemctlArgs [str "show", p, str "--value", u ++ str ".socket"] = false := by
  unfold validateSystemctlArgs
  simp +decide [not_endsWith_socket_service]

lemma serviceUnitToSocketUnit_ends_socket (s : List Char) :
    ∃ stem, serviceUnitToSocketUnit s = stem ++ str ".socket" := by
  rw [serviceUnitToSocketUnit]
  cases h : stripSuffix s (str ".service") with
  | some stem => exact ⟨stem, rfl⟩
  | none => exact ⟨s, rfl⟩

lemma readSocketNConnections_always_error (env : MonitorEnv) (s : List Char) :
    ∃ e, readSocketNConnections env (serviceUnitToSocketUnit s) = .error e := by
  obtain ⟨stem, hst⟩ := serviceUnitToSocketUnit_ends_socket s
  rw [hst, readSocketNConnections, runGateWith]
  rw [show gateAccepts SYSTEMCTL_BIN
      [str "show", str "--property=NConnections", str "--value", stem ++ str ".socket"] = false
    from by rw [gateAccepts_systemctl, validateSystemctl_show_value_socket]]
  exact ⟨_, rfl⟩

/-- C4: the claimed idle-shutdown behaviour never happens in the code.
The monitor reads the socket's NConnections counter through the gate with
`show --property=NConnections --value nanoscale-<id>.socket`, but the
gate's `show` shapes accept only units ending in `.service`, so the read
always fails, `should_stop_service` returns `Ok(false)`, and the
`systemctl stop` invocation is unreachable — for every service name,
uptime, stored traffic state and command output.  The second conjunct
evaluates the rejected gate call at the concrete input. -/
theorem C4_idle_monitor_stop_unreachable :
    (∀ (serviceName : List Char) (env : MonitorEnv) (entry0 : Option TrafficState),
      monitorStopCommand serviceName env entry0 = none)
    ∧ gateAccepts SYSTEMCTL_BIN
        [str "show", str "--property=NConnections", str "--value", str "nanoscale-p1.socket"]
        = false := by
  constructor
  · intro serviceName env entry0
    obtain ⟨e0, herr⟩ := readSocketNConnections_always_error env serviceName
    rw [monitorStopCommand, shouldStopService]
    cases hrun : runGateWith env.activeStateOutput SYSTEMCTL_BIN
        [str "show", str "--property=ActiveState", str "--value", serviceName] with
    | error e => rfl
    | ok out =>
      dsimp only
      split_ifs with h1 h2
      · rfl
      · rfl
      · rw [herr]
  · decide

/-! ### Token store lemmas (C7) -/

lemma find?_eq_head?_filter (p : (List Char × Nat) → Bool) (l : TokenState) :
    l.find? p = (l.filter p).head? := by
  induction l with
  | nil => rfl
  | cons e rest ih =>
    by_cases h : p e = true
    · rw [List.find?_cons_of_pos _ h, List.filter_cons_of_pos h, List.head?_cons]
    · rw [List.find?_cons_of_neg _ (by simpa using h),
        List.filter_cons_of_neg (by simpa using h), ih]

lemma lookupToken_eq (v : List Char) (s : TokenState) :
    lookupToken v s = ((valueEntries v s).head?).map (fun e => e.2) := by
  rw [lookupToken, valueEntries, find?_eq_head?_filter]

lemma valueEntries_prune (v : List Char) (now : Nat) (s : TokenState) :
    valueEntries v (pruneExpired now s)
      = (valueEntries v s).filter (fun e => decide (now < e.2)) := by
  rw [valueEntries, pruneExpired, valueEntries, List.filter_filter, List.filter_filter]
  exact List.filter_congr (fun e _ => by rw [Bool.and_comm])

lemma valueEntries_remove_self (v : List Char) (s : TokenState) :
    valueEntries v (removeToken v s) = [] := by
  rw [valueEntries, removeToken, List.filter_filter]
  apply List.filter_eq_nil_iff.mpr
  intro e _
  simp

lemma valueEntries_remove_other (v w : List Char) (s : TokenState) (h : w ≠ v) :
    valueEntries v (removeToken w s) = valueEntries v s := by
  rw [valueEntries, removeToken, List.filter_filter, valueEntries]
  apply List.filter_congr
  intro e _
  by_cases he : e.1 = v
  · simp [he, Ne.symm h]
  · simp [he]

lemma valueEntries_generate_self (v : List Char) (t : Nat) (s : TokenState) :
    valueEntries v (generateToken v t s) = [(v, t + TOKEN_TTL_SECONDS)] := by
  rw [generateToken, insertToken, valueEntries, List.filter_cons_of_pos (by simp)]
  have : valueEntries v (removeToken v (pruneExpired t s)) = [] :=
    valueEntries_remove_self v (pruneExpired t s)
  rw [valueEntries] at this
  rw [this]

lemma VEntSub_filter (v : List Char) (x : Nat) (s : TokenState) (p : (List Char × Nat) → Bool)
    (h : VEntSub v x s) : VEntSub v x (s.filter p) := by
  have hv : valueEntries v (s.filter p) = (valueEntries v s).filter p := by
    rw [valueEntries, valueEntries, List.filter_filter, List.filter_filter]
    exact List.filter_congr (fun e _ => by rw [Bool.and_comm])
  rcases h with h | h
  · left
    rw [hv, h]
    rfl
  · rw [VEntSub, hv, h]
    by_cases hp : p (v, x) = true
    · right
      rw [List.filter_cons_of_pos hp]
      rfl
    · left
      rw [List.filter_cons_of_neg (by simpa using hp)]
      rfl

lemma VEntSub_applyOp (v : List Char) (x : Nat) (s : TokenState) (op : TokenOp)
    (hop : ¬ generatesValue v op) (h : VEntSub v x s) :
    VEntSub v x (applyTokenOp op s) := by
  cases op with
  | gen w t =>
    have hwv : w ≠ v := fun he => hop (by rw [generatesValue, he])
    rw [applyTokenOp, generateToken, insertToken, VEntSub,
      valueEntries, List.filter_cons_of_neg (by simpa using hwv)]
    have h1 : VEntSub v x (pruneExpired t s) := by
      rw [pruneExpired]
      exact VEntSub_filter v x s _ h
    have h2 : valueEntries v (removeToken w (pruneExpired t s))
        = valueEntries v (pruneExpired t s) := valueEntries_remove_other v w _ hwv
    rw [valueEntries] at h2
    rw [h2]
    exact h1
  | con w t =>
    rw [applyTokenOp, consumeValidToken]
    have h1 : VEntSub v x (pruneExpired t s) := by
      rw [pruneExpired]
      exact VEntSub_filter v x s _ h
    cases hl : lookupToken w (pruneExpired t s) with
    | none => exact h1
    | some exp =>
      dsimp only
      by_cases hwv : w = v
      · subst hwv
        split_ifs <;> exact Or.inl (valueEntries_remove_self w _)
      · have hre := valueEntries_remove_other v w (pruneExpired t s) hwv
        split_ifs <;> rw [VEntSub, hre] <;> exact h1

lemma VEntSub_applyOps (v : List Char) (x : Nat) (ops : List TokenOp) :
    ∀ s : TokenState, (∀ op ∈ ops, ¬ generatesValue v op) → VEntSub v x s →
      VEntSub v x (applyTokenOps ops s) := by
  induction ops with
  | nil => intro s _ h; exact h
  | cons op rest ih =>
    intro s hops h
    rw [applyTokenOps, List.foldl_cons]
    exact ih (applyTokenOp op s)
      (fun o ho => hops o (List.mem_cons_of_mem op ho))
      (VEntSub_applyOp v x s op (hops op (List.mem_cons_self op rest)) h)

lemma valueEntries_nil_filter (v : List Char) (s : TokenState)
    (p : (List Char × Nat) → Bool) (h : valueEntries v s = []) :
    valueEntries v (s.filter p) = [] := by
  have hv : valueEntries v (s.filter p) = (valueEntries v s).filter p := by
    rw [valueEntries, valueEntries, List.filter_filter, List.filter_filter]
    exact List.filter_congr (fun e _ => by rw [Bool.and_comm])
  rw [hv, h]
  rfl

lemma valueEntries_nil_applyOp (v : List Char) (s : TokenState) (op : TokenOp)
    (hop : ¬ generatesValue v op) (h : valueEntries v s = []) :
    valueEntries v (applyTokenOp op s) = [] := by
  cases op with
  | gen w t =>
    have hwv : w ≠ v := fun he => hop (by rw [generatesValue, he])
    rw [applyTokenOp, generateToken, insertToken, valueEntries,
      List.filter_cons_of_neg (by simpa using hwv)]
    have h2 : valueEntries v (removeToken w (pruneExpired t s))
        = valueEntries v (pruneExpired t s) := valueEntries_remove_other v w _ hwv
    rw [valueEntries] at h2
    rw [h2]
    rw [pruneExpired]
    have := valueEntries_nil_filter v s (fun e => decide (t < e.2)) h
    rw [valueEntries] at this ⊢
    exact this
  | con w t =>
    rw [applyTokenOp, consumeValidToken]
    have h1 : valueEntries v (pruneExpired t s) = [] := by
      rw [pruneExpired]
      exact valueEntries_nil_filter v s _ h
    cases hl : lookupToken w (pruneExpired t s) with
    | none => exact h1
    | some exp =>
      dsimp only
      by_cases hwv : w = v
      · subst hwv
        split_ifs <;> exact valueEntries_remove_self w _
      · have hre := valueEntries_remove_other v w (pruneExpired t s) hwv
        split_ifs <;> rw [hre] <;> exact h1

lemma valueEntries_nil_applyOps (v : List Char) (ops : List TokenOp) :
    ∀ s : TokenState, (∀ op ∈ ops, ¬ generatesValue v op) →
      valueEntries v s = [] → valueEntries v (applyTokenOps ops s) = [] := by
  induction ops with
  | nil => intro s _ h; exact h
  | cons op rest ih =>
    intro s hops h
    rw [applyTokenOps, List.foldl_cons]
    exact ih (applyTokenOp op s)
      (fun o ho => hops o (List.mem_cons_of_mem op ho))
      (valueEntries_nil_applyOp v s op (hops op (List.mem_cons_self op rest)) h)

lemma consume_false_of_vEnt_nil (v : List Char) (now : Nat) (s : TokenState)
    (h : valueEntries v s = []) : (consumeValidToken v now s).1 = false := by
  rw [consumeValidToken]
  have hl : lookupToken v (pruneExpired now s) = none := by
    rw [lookupToken_eq, valueEntries_prune, h]
    rfl
  rw [hl]

lemma consume_removes (v : List Char) (now : Nat) (s : TokenState) :
    valueEntries v ((consumeValidToken v now s).2) = [] := by
  rw [consumeValidToken]
  cases hl : lookupToken v (pruneExpired now s) with
  | none =>
    dsimp only
    rw [lookupToken_eq, Option.map_eq_none', List.head?_eq_none_iff] at hl
    rw [valueEntries_prune] at hl ⊢
    exact hl
  | some exp =>
    dsimp only
    split_ifs <;> exact valueEntries_remove_self v _

/-! ### C7 theorem -/

/-- C7: a join token can be consumed successfully at most once (after any
consume of `v`, no later consume of `v` succeeds unless `v` is generated
again); a token generated at time `t` never succeeds once `t + 600`
seconds have been reached, through any further sequence of store
operations; a consume removes the entry whether it was valid or expired;
and pruning never fails a valid token: on a well-formed (key-unique)
store, consume succeeds exactly when the stored expiration is still in the
future. -/
theorem C7_token_store_single_use :
    (∀ (v : List Char) (n1 n2 : Nat) (s : TokenState) (ops : List TokenOp),
      (∀ op ∈ ops, ¬ generatesValue v op) →
      (consumeValidToken v n2 (applyTokenOps ops ((consumeValidToken v n1 s).2))).1 = false)
    ∧ (∀ (v : List Char) (t now : Nat) (s : TokenState) (ops : List TokenOp),
      (∀ op ∈ ops, ¬ generatesValue v op) →
      t + TOKEN_TTL_SECONDS ≤ now →
      (consumeValidToken v now (applyTokenOps ops (generateToken v t s))).1 = false)
    ∧ (∀ (v : List Char) (now : Nat) (s : TokenState),
      lookupToken v ((consumeValidToken v now s).2) = none)
    ∧ (∀ (v : List Char) (now : Nat) (s : TokenState),
      (valueEntries v s).length ≤ 1 →
      ((consumeValidToken v now s).1 = true ↔
        ∃ exp, lookupToken v s = some exp ∧ now < exp)) := by
  refine ⟨?_, ?_, ?_, ?_⟩
  · intro v n1 n2 s ops hops
    exact consume_false_of_vEnt_nil v n2 _
      (valueEntries_nil_applyOps v ops _ hops (consume_removes v n1 s))
  · intro v t now s ops hops httl
    have hsub : VEntSub v (t + TOKEN_TTL_SECONDS) (applyTokenOps ops (generateToken v t s)) :=
      VEntSub_applyOps v (t + TOKEN_TTL_SECONDS) ops _ hops
        (Or.inr (valueEntries_generate_self v t s))
    rw [consumeValidToken]
    have hl : lookupToken v (pruneExpired now (applyTokenOps ops (generateToken v t s)))
        = none := by
      rw [lookupToken_eq, valueEntries_prune]
      rcases hsub with h | h
      · rw [h]
        rfl
      · rw [h, List.filter_cons_of_neg (by simp; omega)]
        rfl
    rw [hl]
  · intro v now s
    rw [lookupToken_eq, consume_removes]
    rfl
  · intro v now s hu
    rw [consumeValidToken, lookupToken_eq v s]
    cases hv : valueEntries v s with
    | nil =>
      have hl : lookupToken v (pruneExpired now s) = none := by
        rw [lookupToken_eq, valueEntries_prune, hv]
        rfl
      rw [hl]
      simp
    | cons e tail =>
      have htail : tail = [] := by
        rw [hv] at hu
        simpa using hu
      subst htail
      have hmem : e ∈ s.filter (fun e => decide (e.1 = v)) := by
        rw [show s.filter (fun e => decide (e.1 = v)) = valueEntries v s from rfl, hv]
        exact List.mem_cons_self e []
      have he1 : e.1 = v := by
        simpa using (List.mem_filter.mp hmem).2
      by_cases hexp : now < e.2
      · have hl : lookupToken v (pruneExpired now s) = some e.2 := by
          rw [lookupToken_eq, valueEntries_prune, hv,
            List.filter_cons_of_pos (by simpa using hexp)]
          rfl
        rw [hl]
        dsimp only
        rw [if_pos hexp]
        simp [hexp]
      · have hl : lookupToken v (pruneExpired now s) = none := by
          rw [lookupToken_eq, valueEntries_prune, hv,
            List.filter_cons_of_neg (by simpa using hexp)]
          rfl
        rw [hl]
        simp [hexp]

/-- C7 witness: the four guarantees at concrete instances — a second
consume of a consumed token fails; a token generated at time 0 fails at
time 600; the consumed entry is gone; and a valid unconsumed token
succeeds. -/
theorem C7_token_store_witness :
    (consumeValidToken (str "t") 5
        (applyTokenOps [] ((consumeValidToken (str "t") 1 [(str "t", 600)]).2))).1 = false
    ∧ (consumeValidToken (str "t") 600 (applyTokenOps [] (generateToken (str "t") 0 []))).1 = false
    ∧ lookupToken (str "t") ((consumeValidToken (str "t") 0 [(str "t", 600)]).2) = none
    ∧ (consumeValidToken (str "t") 5 [(str "t", 600)]).1 = true := by
  refine ⟨?_, ?_, ?_, ?_⟩
  · exact C7_token_store_single_use.1 (str "t") 1 5 [(str "t", 600)] []
      (fun op ho => absurd ho (List.not_mem_nil op))
  · exact C7_token_store_single_use.2.1 (str "t") 0 600 [] []
      (fun op ho => absurd ho (List.not_mem_nil op)) (by rw [TOKEN_TTL_SECONDS])
  · exact C7_token_store_single_use.2.2.1 (str "t") 0 [(str "t", 600)]
  · exact (C7_token_store_single_use.2.2.2 (str "t") 5 [(str "t", 600)]
      (by decide)).mpr ⟨600, by decide, by omega⟩

/-! ### Teardown lemmas (C9) -/

lemma takeWhile_append_of_all (p : Char → Bool) (a b : List Char)
    (h : ∀ x ∈ a, p x = true) :
    (a ++ b).takeWhile p = a ++ b.takeWhile p := by
  induction a with
  | nil => rfl
  | cons x rest ih =>
    rw [List.cons_append, List.takeWhile_cons_of_pos (h x (List.mem_cons_self x rest)),
      ih (fun y hy => h y (List.mem_cons_of_mem x hy)), List.cons_append]

lemma takeWhile_append_of_short (p : Char → Bool) (a b : List Char)
    (h : (a.takeWhile p).length < a.length) :
    (a ++ b).takeWhile p = a.takeWhile p := by
  induction a with
  | nil => simp at h
  | cons x rest ih =>
    by_cases hx : p x = true
    · rw [List.cons_append, List.takeWhile_cons_of_pos hx, List.takeWhile_cons_of_pos hx,
        ih (by rw [List.takeWhile_cons_of_pos hx] at h; simpa using h)]
    · rw [List.cons_append, List.takeWhile_cons_of_neg (by simpa using hx),
        List.takeWhile_cons_of_neg (by simpa using hx)]

lemma goodId_no_dot (id : List Char) (hid : goodProjectId id) :
    ∀ c ∈ id, c ≠ '.' := by
  intro c hc he
  rcases hid c hc with h | h
  · rw [he] at h
    exact absurd h (by decide)
  · rw [he] at h
    exact absurd h (by decide)

lemma goodId_no_slash (id : List Char) (hid : goodProjectId id) :
    ∀ c ∈ id, c ≠ '/' := by
  intro c hc he
  rcases hid c hc with h | h
  · rw [he] at h
    exact absurd h (by decide)
  · rw [he] at h
    exact absurd h (by decide)

lemma containsSeq_dots_eq_false (t : List Char) (h : ∀ c ∈ t, c ≠ '.') :
    containsSeq t (str "..") = false := by
  induction t with
  | nil => rfl
  | cons c rest ih =>
    rw [containsSeq]
    have hc : c ≠ '.' := h c (List.mem_cons_self c rest)
    have h1 : List.isPrefixOf (str "..") (c :: rest) = false := by
      rw [show str ".." = '.' :: ['.'] from rfl, List.isPrefixOf_cons₂]
      have : ('.' == c) = false := by
        rw [beq_eq_false_iff_ne]
        exact fun he => hc he.symm
      rw [this, Bool.false_and]
    rw [h1, ih (fun x hx => h x (List.mem_cons_of_mem c hx)), Bool.or_self]

lemma strEndsWith_append_self2 (a b p : List Char) :
    strEndsWith (a ++ (b ++ p)) p = true := by
  rw [← List.append_assoc]
  exact strEndsWith_append_self _ _

lemma gate_rm_f_unit_paths (id : List Char) :
    gateAccepts RM_BIN [str "-f", serviceUnitPath id] = true
    ∧ gateAccepts RM_BIN [str "-f", socketUnitPath id] = true
    ∧ gateAccepts RM_BIN [str "-f", serviceWantsPath id] = true
    ∧ gateAccepts RM_BIN [str "-f", socketWantsPath id] = true := by
  refine ⟨?_, ?_, ?_, ?_⟩ <;>
    rw [gateAccepts_rm, validateRmArgs] <;>
    [rw [serviceUnitPath]; rw [socketUnitPath]; rw [serviceWantsPath]; rw [socketWantsPath]] <;>
    rw [rmFileTargetAllowed, List.append_assoc] <;>
    simp [strEndsWith_append_self2, strStartsWith_append_self]

lemma fileNameOf_slash_append (lit X : List Char)
    (hlit : lit.reverse.takeWhile (fun c => decide (c ≠ '/')) = [])
    (hX : ∀ x ∈ X, x ≠ '/') :
    fileNameOf (lit ++ X) = X := by
  rw [fileNameOf, List.reverse_append,
    takeWhile_append_of_all _ _ _
      (by intro x hx; rw [List.mem_reverse] at hx; simpa using hX x hx),
    hlit, List.append_nil, List.reverse_reverse]

lemma extensionOf_append_conf (pre : List Char) (h : 0 < pre.length) :
    extensionOf (pre ++ str ".conf") = some (str "conf") := by
  rw [extensionOf]
  have hrev : (pre ++ str ".conf").reverse = str "fnoc" ++ ('.' :: pre.reverse) := by
    rw [List.reverse_append]
    rfl
  have htw : ((pre ++ str ".conf").reverse).takeWhile (fun c => decide (c ≠ '.'))
      = str "fnoc" := by
    rw [hrev, takeWhile_append_of_all _ _ _ (by intro x hx; fin_cases hx <;> decide),
      List.takeWhile_cons_of_neg (by decide), List.append_nil]
  rw [htw, if_pos ?hlen]
  · rfl
  case hlen =>
    rw [List.length_append]
    have h5 : (str ".conf").length = 5 := rfl
    have h4 : (str "fnoc").length = 4 := rfl
    rw [h5, h4]
    omega

lemma hasConfExtension_nginx (id : List Char) (hid : goodProjectId id) :
    hasConfExtension (nginxConfPath id) = true := by
  rw [nginxConfPath,
    show str "/etc/nginx/sites-enabled/nanoscale-"
      = str "/etc/nginx/sites-enabled/" ++ str "nanoscale-" from rfl]
  have hassoc : ((str "/etc/nginx/sites-enabled/" ++ str "nanoscale-") ++ id) ++ str ".conf"
      = str "/etc/nginx/sites-enabled/" ++ ((str "nanoscale-" ++ id) ++ str ".conf") := by
    simp [List.append_assoc]
  rw [hassoc, hasConfExtension,
    fileNameOf_slash_append (str "/etc/nginx/sites-enabled/") ((str "nanoscale-" ++ id) ++ str ".conf")
      (by decide)
      (by
        intro x hx
        rcases List.mem_append.mp hx with hx | hx
        · rcases List.mem_append.mp hx with hx | hx
          · fin_cases hx <;> decide
          · exact goodId_no_slash id hid x hx
        · fin_cases hx <;> decide),
    extensionOf_append_conf (str "nanoscale-" ++ id)
      (by rw [List.length_append]; have : (str "nanoscale-").length = 10 := rfl; omega)]
  decide

lemma gate_rm_f_conf_path (id : List Char) (hid : goodProjectId id) :
    gateAccepts RM_BIN [str "-f", nginxConfPath id] = true := by
  rw [gateAccepts_rm, validateRmArgs, rmFileTargetAllowed]
  have h1 : strStartsWith (nginxConfPath id) (str "/etc/nginx/sites-enabled/nanoscale-") = true := by
    rw [nginxConfPath, List.append_assoc]
    exact strStartsWith_append_self _ _
  rw [h1, hasConfExtension_nginx id hid]
  simp

lemma gate_rm_rf_dir_paths (id : List Char) (hid : goodProjectId id) :
    gateAccepts RM_BIN [str "-rf", projectSitesPath id] = true
    ∧ gateAccepts RM_BIN [str "-rf", projectTmpPath id] = true := by
  have hnodot1 : ∀ c ∈ projectSitesPath id, c ≠ '.' := by
    intro c hc
    rw [projectSitesPath] at hc
    rcases List.mem_append.mp hc with hc | hc
    · fin_cases hc <;> decide
    · exact goodId_no_dot id hid c hc
  have hnodot2 : ∀ c ∈ projectTmpPath id, c ≠ '.' := by
    intro c hc
    rw [projectTmpPath] at hc
    rcases List.mem_append.mp hc with hc | hc
    · fin_cases hc <;> decide
    · exact goodId_no_dot id hid c hc
  constructor <;> rw [gateAccepts_rm, validateRmArgs, rmDirectoryTargetAllowed]
  · rw [show projectSitesPath id = str "/opt/nanoscale/sites/" ++ id from rfl,
      strStartsWith_append_self]
    rw [show str "/opt/nanoscale/sites/" ++ id = projectSitesPath id from rfl,
      containsSeq_dots_eq_false _ hnodot1]
    simp
  · rw [show projectTmpPath id = str "/opt/nanoscale/tmp/" ++ id from rfl]
    have h2 : strStartsWith (str "/opt/nanoscale/tmp/" ++ id) (str "/opt/nanoscale/tmp/") = true :=
      strStartsWith_append_self _ _
    rw [h2, show str "/opt/nanoscale/tmp/" ++ id = projectTmpPath id from rfl,
      containsSeq_dots_eq_false _ hnodot2]
    simp

lemma gate_userdel_ok (id : List Char) :
    gateAccepts USERDEL_BIN [str "nanoscale-" ++ id] = true := by
  rw [gateAccepts_userdel, validateUserdelArgs]
  simp [strStartsWith_append_self]

lemma exceptBind_ok {ε α β : Type} (a : α) (f : α → Except ε β) :
    (Except.ok a >>= f : Except ε β) = f a := rfl

lemma exceptPure {ε α : Type} (a : α) : (pure a : Except ε α) = .ok a := rfl

lemma boolEq_of_iff {x y : Bool} (h : x = true ↔ y = true) : x = y := by
  cases x <;> cases y <;> simp_all

lemma removeFileIfExists_ok (p : List Char)
    (hacc : gateAccepts RM_BIN [str "-f", p] = true) (st : HostState) :
    removeFileIfExists p st
      = .ok (decide (p ∈ st.files),
          ⟨st.files.filter (fun q => decide (q ≠ p)), st.userExists⟩) := by
  rw [removeFileIfExists, runGateUnit, hacc]
  by_cases hm : p ∈ st.files
  · rw [if_pos (by simpa using hm)]
    simp [removePathFromState, hm]
  · rw [if_neg (by simpa using hm)]
    have hfilter : st.files.filter (fun q => decide (q ≠ p)) = st.files :=
      List.filter_eq_self.mpr (fun q hq => decide_eq_true (fun he => hm (he ▸ hq)))
    rw [hfilter]
    simp [hm]

lemma removeDirectoryIfExists_ok (p : List Char)
    (hacc : gateAccepts RM_BIN [str "-rf", p] = true) (st : HostState) :
    removeDirectoryIfExists p st
      = .ok ⟨st.files.filter (fun q => decide (q ≠ p)), st.userExists⟩ := by
  rw [removeDirectoryIfExists, runGateUnit, hacc]
  by_cases hm : p ∈ st.files
  · rw [if_pos (by simpa using hm)]
    simp [removePathFromState]
  · rw [if_neg (by simpa using hm)]
    have hfilter : st.files.filter (fun q => decide (q ≠ p)) = st.files :=
      List.filter_eq_self.mpr (fun q hq => decide_eq_true (fun he => hm (he ▸ hq)))
    rw [hfilter]

lemma removeProjectUser_ok (id : List Char) (st : HostState) :
    removeProjectUser id st = .ok ⟨st.files, false⟩ := by
  cases st with
  | mk files user =>
    cases user <;>
      simp [removeProjectUser, runGateUnit, gate_userdel_ok id]

lemma take_append_of_le (n : Nat) (a b : List Char) (h : n ≤ a.length) :
    (a ++ b).take n = a.take n := by
  rw [List.take_append_eq_append_take, Nat.sub_eq_zero_of_le h, List.take_zero,
    List.append_nil]

lemma ne_of_take_six (u v : List Char) (h : u.take 6 ≠ v.take 6) : u ≠ v :=
  fun he => h (by rw [he])

lemma nginxConf_ne_unit_paths (id : List Char) :
    nginxConfPath id ≠ serviceUnitPath id
    ∧ nginxConfPath id ≠ socketUnitPath id
    ∧ nginxConfPath id ≠ serviceWantsPath id
    ∧ nginxConfPath id ≠ socketWantsPath id := by
  have hconf : (nginxConfPath id).take 6 = str "/etc/n" := by
    rw [nginxConfPath, List.append_assoc, take_append_of_le 6 _ _ (by decide)]
    decide
  refine ⟨?_, ?_, ?_, ?_⟩ <;> apply ne_of_take_six <;> rw [hconf] <;>
    [rw [serviceUnitPath]; rw [socketUnitPath]; rw [serviceWantsPath]; rw [socketWantsPath]] <;>
    rw [List.append_assoc, take_append_of_le 6 _ _ (by decide)] <;> decide

lemma runGateUnit_daemon_reload :
    runGateUnit SYSTEMCTL_BIN [str "daemon-reload"] = .ok () := by
  rw [runGateUnit]
  rw [if_pos (by decide)]

lemma runGateUnit_nginx_reload :
    runGateUnit SERVICE_BIN [str "nginx", str "reload"] = .ok () := by
  rw [runGateUnit]
  rw [if_pos (by decide)]

set_option maxHeartbeats 2000000 in
/-- One full run of `delete_project`: it succeeds from any host state,
leaving exactly the teardown-final state, and reloads nginx iff the site
file existed. -/
lemma deleteProject_eq (id : List Char) (hid : goodProjectId id) (st : HostState) :
    deleteProject id st
      = .ok (teardownFinalState id st, decide (nginxConfPath id ∈ st.files)) := by
  obtain ⟨h1, h2, h3, h4⟩ := gate_rm_f_unit_paths id
  have h5 := gate_rm_f_conf_path id hid
  obtain ⟨h6, h7⟩ := gate_rm_rf_dir_paths id hid
  obtain ⟨hne1, hne2, hne3, hne4⟩ := nginxConf_ne_unit_paths id
  rw [deleteProject]
  simp only [removeFileIfExists_ok _ h1, removeFileIfExists_ok _ h2,
    removeFileIfExists_ok _ h3, removeFileIfExists_ok _ h4, removeFileIfExists_ok _ h5,
    removeDirectoryIfExists_ok _ h6, removeDirectoryIfExists_ok _ h7,
    removeProjectUser_ok, runGateUnit_daemon_reload, runGateUnit_nginx_reload,
    exceptBind_ok, List.filter_filter]
  simp only [ite_self, exceptBind_ok, exceptPure]
  rw [teardownFinalState]
  simp only [Except.ok.injEq, Prod.mk.injEq, HostState.mk.injEq]
  refine ⟨⟨?_, trivial⟩, ?_⟩
  · apply List.filter_congr
    intro a _
    apply boolEq_of_iff
    simp only [Bool.and_eq_true, decide_eq_true_eq, teardownPaths, List.mem_cons,
      List.mem_singleton, not_or, List.not_mem_nil]
    tauto
  · apply boolEq_of_iff
    simp only [decide_eq_true_eq, List.mem_filter, Bool.and_eq_true, decide_eq_true_eq]
    constructor
    · exact fun h => h.1
    · intro h
      refine ⟨h, ?_⟩
      tauto

/-- C9: teardown is idempotent — for every project id (UUID-shaped) and
every host state, `delete_project` succeeds; running it a second time also
succeeds, changes nothing, and does not reload nginx; and the final state
(the seven per-project paths removed, the user gone) is a fixed point.
The nginx reload flag of the first run is exactly whether the site file
existed. -/
theorem C9_teardown_idempotent :
    ∀ (id : List Char) (st : HostState), goodProjectId id →
      deleteProject id st
        = .ok (teardownFinalState id st, decide (nginxConfPath id ∈ st.files))
      ∧ deleteProject id (teardownFinalState id st)
        = .ok (teardownFinalState id st, false)
      ∧ teardownFinalState id (teardownFinalState id st) = teardownFinalState id st := by
  intro id st hid
  have hidem : teardownFinalState id (teardownFinalState id st) = teardownFinalState id st := by
    rw [teardownFinalState, teardownFinalState, List.filter_filter]
    simp only [HostState.mk.injEq, and_true]
    exact List.filter_congr (fun a _ => by rw [Bool.and_self])
  have hconf : decide (nginxConfPath id ∈ (teardownFinalState id st).files) = false := by
    rw [teardownFinalState]
    apply decide_eq_false
    intro hmem
    have := (List.mem_filter.mp hmem).2
    rw [decide_eq_true_eq, teardownPaths] at this
    exact this (by simp)
  refine ⟨deleteProject_eq id hid st, ?_, hidem⟩
  rw [deleteProject_eq id hid (teardownFinalState id st), hidem, hconf]

/-- C9 witness: both runs at a concrete id and a concrete host state with
the unit file, the site file and an unrelated path present. -/
theorem C9_teardown_witness :
    deleteProject (str "p1")
        ⟨[serviceUnitPath (str "p1"), nginxConfPath (str "p1"), str "/keep"], true⟩
      = .ok (teardownFinalState (str "p1")
            ⟨[serviceUnitPath (str "p1"), nginxConfPath (str "p1"), str "/keep"], true⟩,
          decide (nginxConfPath (str "p1")
            ∈ [serviceUnitPath (str "p1"), nginxConfPath (str "p1"), str "/keep"]))
    ∧ deleteProject (str "p1")
        (teardownFinalState (str "p1")
          ⟨[serviceUnitPath (str "p1"), nginxConfPath (str "p1"), str "/keep"], true⟩)
      = .ok (teardownFinalState (str "p1")
            ⟨[serviceUnitPath (str "p1"), nginxConfPath (str "p1"), str "/keep"], true⟩,
          false) := by
  have h := C9_teardown_idempotent (str "p1")
    ⟨[serviceUnitPath (str "p1"), nginxConfPath (str "p1"), str "/keep"], true⟩
    (by intro c hc; fin_cases hc <;> [exact Or.inl (by decide); exact Or.inl (by decide)])
  exact ⟨h.1, h.2.1⟩

/-! ### Subdomain assignment lemmas (C8) -/

lemma charLe_iff_toNat (a b : Char) : a ≤ b ↔ a.toNat ≤ b.toNat := by
  rw [Char.le_def, UInt32.le_def, BitVec.le_def]
  exact Iff.rfl

lemma toNat_charOfNat_valid (n : Nat) (h : n.isValidChar) : (Char.ofNat n).toNat = n := by
  rw [Char.ofNat, dif_pos h]
  rfl

lemma lower_of_alnum_lower (c : Char)
    (h : isAsciiAlphanumeric (asciiToLower c) = true) :
    isLowerAlnumDash (asciiToLower c) = true := by
  rw [asciiToLower] at h ⊢
  by_cases hu : ('A' ≤ c && c ≤ 'Z') = true
  · rw [if_pos hu] at h ⊢
    rw [Bool.and_eq_true, decide_eq_true_eq, decide_eq_true_eq] at hu
    have h65 : 65 ≤ c.toNat := (charLe_iff_toNat 'A' c).mp hu.1
    have h90 : c.toNat ≤ 90 := (charLe_iff_toNat c 'Z').mp hu.2
    have hval : (c.toNat + 32).isValidChar := Or.inl (by omega)
    have htn : (Char.ofNat (c.toNat + 32)).toNat = c.toNat + 32 :=
      toNat_charOfNat_valid _ hval
    rw [isLowerAlnumDash]
    have ha : ('a' ≤ Char.ofNat (c.toNat + 32)) := by
      rw [charLe_iff_toNat, htn, show ('a').toNat = 97 from rfl]
      omega
    have hz : (Char.ofNat (c.toNat + 32) ≤ 'z') := by
      rw [charLe_iff_toNat, htn, show ('z').toNat = 122 from rfl]
      omega
    simp [ha, hz]
  · rw [if_neg hu] at h ⊢
    rw [isAsciiAlphanumeric] at h
    rw [isLowerAlnumDash]
    rcases Bool.or_eq_true_iff.mp h with h1 | h1
    · rcases Bool.or_eq_true_iff.mp h1 with h2 | h2
      · rw [h2]
        simp
      · exact absurd h2 (by simpa using hu)
    · rw [h1]
      simp

lemma hex_is_lowerAlnumDash (c : Char) (h : isLowerHexDigit c = true) :
    isLowerAlnumDash c = true := by
  rw [isLowerHexDigit] at h
  rw [isLowerAlnumDash]
  rcases Bool.or_eq_true_iff.mp h with h1 | h1
  · rw [h1]
    simp
  · rw [Bool.and_eq_true, decide_eq_true_eq, decide_eq_true_eq] at h1
    have ha : 97 ≤ c.toNat := (charLe_iff_toNat 'a' c).mp h1.1
    have hf : c.toNat ≤ 102 := (charLe_iff_toNat c 'f').mp h1.2
    have h1b : ('a' ≤ c) := (charLe_iff_toNat 'a' c).mpr (by
      rw [show ('a').toNat = 97 from rfl]
      omega)
    have h2b : (c ≤ 'z') := (charLe_iff_toNat c 'z').mpr (by
      rw [show ('z').toNat = 122 from rfl]
      omega)
    simp [h1b, h2b]

lemma slugifyCore_chars (name : List Char) :
    ∀ prevSep : Bool, ∀ c ∈ slugifyCore name prevSep, isLowerAlnumDash c = true := by
  induction name with
  | nil => intro prevSep c hc; simp [slugifyCore] at hc
  | cons x rest ih =>
    intro prevSep c hc
    rw [slugifyCore] at hc
    by_cases hx : isAsciiAlphanumeric (asciiToLower x) = true
    · rw [if_pos hx] at hc
      rcases List.mem_cons.mp hc with hc | hc
      · rw [hc]
        exact lower_of_alnum_lower x hx
      · exact ih false c hc
    · rw [if_neg hx] at hc
      by_cases hp : prevSep = true
      · rw [hp] at hc
        rw [if_pos rfl] at hc
        exact ih true c hc
      · rw [Bool.not_eq_true] at hp
        rw [hp] at hc
        rw [if_neg (by simp)] at hc
        rcases List.mem_cons.mp hc with hc | hc
        · rw [hc]
          rfl
        · exact ih true c hc

lemma mem_dropTrailingDashes (l : List Char) (c : Char)
    (h : c ∈ dropTrailingDashes l) : c ∈ l := by
  rw [dropTrailingDashes, List.mem_reverse] at h
  have := (List.dropWhile_sublist (l := l.reverse)
    (p := fun c => decide (c = '-'))).subset h
  rwa [List.mem_reverse] at this

lemma length_dropTrailingDashes (l : List Char) :
    (dropTrailingDashes l).length ≤ l.length := by
  rw [dropTrailingDashes, List.length_reverse]
  calc (l.reverse.dropWhile (fun c => decide (c = '-'))).length
      ≤ l.reverse.length := (List.dropWhile_sublist _).length_le
    _ = l.length := List.length_reverse l

lemma dropTrailingDashes_no_dash (l : List Char) :
    strEndsWith (dropTrailingDashes l) (str "-") = false := by
  rw [strEndsWith, dropTrailingDashes, List.reverse_reverse]
  have hh := List.head?_dropWhile_not (fun c => decide (c = '-')) l.reverse
  cases hd : (l.reverse.dropWhile (fun c => decide (c = '-'))) with
  | nil => rfl
  | cons c rest =>
    rw [hd] at hh
    simp only [List.head?_cons] at hh
    rw [show (str "-").reverse = ['-'] from rfl, List.isPrefixOf_cons₂]
    have : ('-' == c) = false := by
      rw [beq_eq_false_iff_ne]
      intro he
      rw [decide_eq_false_iff_not] at hh
      exact hh he.symm
    rw [this, Bool.false_and]

/-- The properties shared by every assigned DNS label. -/
lemma truncateDnsLabel_props (label : List Char)
    (hchars : ∀ c ∈ label, isLowerAlnumDash c = true) :
    truncateDnsLabel label ≠ []
    ∧ (truncateDnsLabel label).length ≤ 63
    ∧ (∀ c ∈ truncateDnsLabel label, isLowerAlnumDash c = true)
    ∧ strEndsWith (truncateDnsLabel label) (str "-") = false := by
  rw [truncateDnsLabel]
  by_cases he : dropTrailingDashes (label.take 63) = []
  · rw [if_pos he]
    refine ⟨by decide, by decide, ?_, by decide⟩
    intro c hc
    fin_cases hc <;> decide
  · rw [if_neg he]
    refine ⟨he, ?_, ?_, dropTrailingDashes_no_dash _⟩
    · calc (dropTrailingDashes (label.take 63)).length
          ≤ (label.take 63).length := length_dropTrailingDashes _
        _ ≤ 63 := by rw [List.length_take]; omega
    · intro c hc
      exact hchars c (List.take_subset 63 label (mem_dropTrailingDashes _ c hc))

lemma trimLabelForSuffix_props (label : List Char) (k : Nat) (hk : k ≤ 6)
    (hchars : ∀ c ∈ label, isLowerAlnumDash c = true) :
    trimLabelForSuffix label k ≠ []
    ∧ (trimLabelForSuffix label k).length ≤ 63 - (k + 1)
    ∧ (∀ c ∈ trimLabelForSuffix label k, isLowerAlnumDash c = true) := by
  rw [trimLabelForSuffix]
  have hmax : max (63 - (k + 1)) 1 = 63 - (k + 1) := by omega
  by_cases he : dropTrailingDashes (label.take (max (63 - (k + 1)) 1)) = []
  · rw [if_pos he]
    refine ⟨by decide, ?_, ?_⟩
    · have : (str "project").length = 7 := rfl
      omega
    · intro c hc
      fin_cases hc <;> decide
  · rw [if_neg he]
    refine ⟨he, ?_, ?_⟩
    · calc (dropTrailingDashes (label.take (max (63 - (k + 1)) 1))).length
          ≤ (label.take (max (63 - (k + 1)) 1)).length := length_dropTrailingDashes _
        _ ≤ max (63 - (k + 1)) 1 := by rw [List.length_take]; omega
        _ = 63 - (k + 1) := hmax
    · intro c hc
      exact hchars c (List.take_subset _ label (mem_dropTrailingDashes _ c hc))

lemma splitLabels_append (l r : List Char) (hl : ∀ c ∈ l, c ≠ '.') :
    splitLabels (l ++ '.' :: r) = l :: splitLabels r := by
  induction l with
  | nil =>
    rw [List.nil_append, splitLabels, if_pos rfl]
  | cons x rest ih =>
    rw [List.cons_append, splitLabels,
      if_neg (hl x (List.mem_cons_self x rest)),
      ih (fun c hc => hl c (List.mem_cons_of_mem x hc))]

lemma mem_trimDashes (l : List Char) (c : Char) (h : c ∈ trimDashes l) : c ∈ l := by
  rw [trimDashes, List.mem_reverse] at h
  have h2 := (List.dropWhile_sublist (l := (l.dropWhile (fun c => decide (c = '-'))).reverse)
    (p := fun c => decide (c = '-'))).subset h
  rw [List.mem_reverse] at h2
  exact (List.dropWhile_sublist _).subset h2

lemma class_ne_dot (c : Char) (h : isLowerAlnumDash c = true) : c ≠ '.' := by
  intro he
  rw [he] at h
  exact absurd h (by decide)

/-- C8: whenever a base domain is configured and the project id is a UUID
string (lowercase hex and dashes, at least six hex digits), the assigned
FQDN is `<label>.<base>` where the leading label is nonempty, at most 63
characters, made of lowercase alphanumerics and dashes (with an optional
six-hex-digit suffix — all covered by `[a-z0-9-]+`), and does not end in a
dash; the dot-split of the FQDN is exactly that label followed by the
base's own labels; and the request fails with a bad request exactly when
the project name slugifies to the empty string. -/
theorem C8_assigned_domain_well_formed :
    ∀ (base projectId projectName : List Char) (inUse1 inUse2 : Bool),
      (∀ c ∈ projectId, isLowerHexDigit c = true ∨ c = '-') →
      6 ≤ (projectId.filter (fun c => decide (c ≠ '-'))).length →
      (assignedProjectDomain (some base) inUse1 inUse2 projectId projectName
          = .error .badRequest ↔ slugifyProjectName projectName = none)
      ∧ (∀ fqdn, assignedProjectDomain (some base) inUse1 inUse2 projectId projectName
            = .ok (some fqdn) →
          ∃ label, fqdn = label ++ str "." ++ base
            ∧ label ≠ []
            ∧ label.length ≤ 63
            ∧ (∀ c ∈ label, isLowerAlnumDash c = true)
            ∧ strEndsWith label (str "-") = false
            ∧ splitLabels fqdn = label :: splitLabels base) := by
  intro base projectId projectName inUse1 inUse2 hpid hlen
  constructor
  · rw [assignedProjectDomain]
    cases hs : slugifyProjectName projectName with
    | none => simp
    | some slug =>
      dsimp only
      constructor
      · intro h
        exfalso
        cases inUse1 <;> simp only [Bool.false_eq_true, if_false, if_true] at h
        · exact Except.noConfusion h
        · cases inUse2 <;> simp only [Bool.false_eq_true, if_false, if_true] at h
          · exact Except.noConfusion h
          · exact DomainError.noConfusion (Except.error.inj h)
      · intro h
        exact absurd h (by simp)
  · intro fqdn h
    rw [assignedProjectDomain] at h
    cases hs : slugifyProjectName projectName with
    | none =>
      rw [hs] at h
      exact absurd h (by simp)
    | some slug =>
      rw [hs] at h
      dsimp only at h
      have hslugchars : ∀ c ∈ slug, isLowerAlnumDash c = true := by
        have hs2 := hs
        rw [slugifyProjectName] at hs2
        by_cases he : trimDashes (slugifyCore projectName false) = []
        · rw [if_pos he] at hs2
          exact absurd hs2 (by simp)
        · rw [if_neg he] at hs2
          have hseq := Option.some.inj hs2
          intro c hc
          rw [← hseq] at hc
          exact slugifyCore_chars projectName false c (mem_trimDashes _ c hc)
      obtain ⟨hne0, hlen63, hch0, hnodash0⟩ := truncateDnsLabel_props slug hslugchars
      cases inUse1 with
      | false =>
        rw [if_neg (by simp)] at h
        have hfq := Option.some.inj (Except.ok.inj h)
        refine ⟨truncateDnsLabel slug, hfq.symm, hne0, hlen63, hch0, hnodash0, ?_⟩
        rw [← hfq]
        have : truncateDnsLabel slug ++ str "." ++ base
            = truncateDnsLabel slug ++ ('.' :: base) := by
          rw [List.append_assoc]
          rfl
        rw [this, splitLabels_append _ _ (fun c hc => class_ne_dot c (hch0 c hc))]
      | true =>
        rw [if_pos rfl] at h
        cases inUse2 with
        | true =>
          rw [if_pos rfl] at h
          exact Except.noConfusion h
        | false =>
          rw [if_neg (by simp)] at h
          have hfq := Option.some.inj (Except.ok.inj h)
          have hsl : ((projectId.filter (fun c => decide (c ≠ '-'))).take 6).length = 6 := by
            rw [List.length_take]
            omega
          have hsuffhex : ∀ c ∈ (projectId.filter (fun c => decide (c ≠ '-'))).take 6,
              isLowerHexDigit c = true := by
            intro c hc
            have hcf := List.take_subset 6 _ hc
            have := List.mem_filter.mp hcf
            rcases hpid c this.1 with hh | hh
            · exact hh
            · rw [decide_eq_true_eq] at this
              exact absurd hh this.2
          obtain ⟨hane, halen, hach⟩ := trimLabelForSuffix_props (truncateDnsLabel slug)
            ((projectId.filter (fun c => decide (c ≠ '-'))).take 6).length
            (by rw [hsl]) hch0
          refine ⟨(trimLabelForSuffix (truncateDnsLabel slug)
              ((projectId.filter (fun c => decide (c ≠ '-'))).take 6).length
            ++ str "-") ++ (projectId.filter (fun c => decide (c ≠ '-'))).take 6,
            ?_, ?_, ?_, ?_, ?_, ?_⟩
          · rw [← hfq]
          · intro he
            have := congrArg List.length he
            rw [List.length_append, List.length_append, hsl] at this
            simp at this
          · rw [List.length_append, List.length_append, hsl]
            have h1 : (str "-").length = 1 := rfl
            rw [h1]
            rw [hsl] at halen
            omega
          · intro c hc
            rcases List.mem_append.mp hc with hc | hc
            · rcases List.mem_append.mp hc with hc | hc
              · exact hach c hc
              · fin_cases hc
                decide
            · exact hex_is_lowerAlnumDash c (hsuffhex c hc)
          · rw [strEndsWith, List.reverse_append]
            cases hsr : ((projectId.filter (fun c => decide (c ≠ '-'))).take 6).reverse with
            | nil =>
              exfalso
              have := congrArg List.length hsr
              rw [List.length_reverse, hsl] at this
              simp at this
            | cons c rest =>
              have hcmem : c ∈ (projectId.filter (fun c => decide (c ≠ '-'))).take 6 := by
                rw [← List.mem_reverse, hsr]
                exact List.mem_cons_self c rest
              have hchex := hsuffhex c hcmem
              rw [List.cons_append,
                show (str "-").reverse = ['-'] from rfl, List.isPrefixOf_cons₂]
              have : ('-' == c) = false := by
                rw [beq_eq_false_iff_ne]
                intro he
                rw [← he] at hchex
                exact absurd hchex (by decide)
              rw [this, Bool.false_and]
          · rw [← hfq]
            have hassoc : ((trimLabelForSuffix (truncateDnsLabel slug)
                  ((projectId.filter (fun c => decide (c ≠ '-'))).take 6).length
                ++ str "-") ++ (projectId.filter (fun c => decide (c ≠ '-'))).take 6)
                ++ str "." ++ base
                = ((trimLabelForSuffix (truncateDnsLabel slug)
                  ((projectId.filter (fun c => decide (c ≠ '-'))).take 6).length
                ++ str "-") ++ (projectId.filter (fun c => decide (c ≠ '-'))).take 6)
                ++ ('.' :: base) := by
              rw [List.append_assoc
                ((trimLabelForSuffix (truncateDnsLabel slug)
                  ((projectId.filter (fun c => decide (c ≠ '-'))).take 6).length
                ++ str "-") ++ (projectId.filter (fun c => decide (c ≠ '-'))).take 6)]
              rfl
            rw [hassoc]
            apply splitLabels_append
            intro c hc
            rcases List.mem_append.mp hc with hc | hc
            · rcases List.mem_append.mp hc with hc | hc
              · exact class_ne_dot c (hach c hc)
              · fin_cases hc
                decide
            · exact class_ne_dot c (hex_is_lowerAlnumDash c (hsuffhex c hc))

/-- C8 witness: at a concrete base domain, UUID-like id and the
unsluggable name `----`, the request is a bad request; and the id
hypotheses hold. -/
theorem C8_assigned_domain_witness :
    assignedProjectDomain (some (str "example.com")) false false (str "abcdef12")
        (str "----")
      = .error .badRequest := by
  have h := (C8_assigned_domain_well_formed (str "example.com") (str "abcdef12")
    (str "----") false false
    (by intro c hc; fin_cases hc <;> exact Or.inl (by decide))
    (by decide)).1
  exact h.mpr (by decide)

/-! ### Signature middleware (C2) -/

set_option maxRecDepth 100000 in
/-- C2 counterexample: the middleware accepts an UPPERCASE hex encoding of
the correct HMAC-SHA256 tag (hex::decode is case-insensitive), although
that signature string differs from `hex(HMAC(secret, body ‖ ts))`, which
`hex::encode` produces in lowercase — so acceptance is not equivalent to
`sig = hex(HMAC(secret, body ‖ ts))` as the claim states.  Secret `k`,
empty body, timestamp `0`, clock at 0. -/
theorem C2_counterexample_uppercase_hex_accepted :
    verifyClusterSignature
        (fun sid => if sid = str "s" then some (asciiBytes (str "k")) else none) 0
        ⟨some (hexUpper (hexEncode
            (hmacSha256 (asciiBytes (str "k")) ([] ++ asciiBytes (str "0"))))),
          some (str "0"), some (str "s"), []⟩
        = .accepted
    ∧ hexUpper (hexEncode (hmacSha256 (asciiBytes (str "k")) ([] ++ asciiBytes (str "0"))))
        ≠ hexEncode (hmacSha256 (asciiBytes (str "k")) ([] ++ asciiBytes (str "0"))) := by
  constructor
  · decide
  · decide

/-- C2 (amended): for requests whose server id resolves to a stored
secret, the middleware accepts iff the timestamp parses with
`now − ts ≤ 30`, the body is within 1 MiB, and the signature header is a
hexadecimal encoding — case-insensitively, i.e. `hex::decode(sig)` equals
the HMAC bytes — of HMAC-SHA256(secret, body ‖ ts); a missing header, an
unparsable timestamp, a stale timestamp, or an unknown server id yield
unauthorized, and an oversized body (with fresh timestamp) yields
bad-request. -/
theorem C2_amended_signature_characterization :
    (∀ (lookup : List Char → Option (List Nat)) (now : Int) (req : ClusterRequest),
      (req.signatureHeader = none ∨ req.timestampHeader = none ∨ req.serverIdHeader = none) →
      verifyClusterSignature lookup now req = .unauthorized)
    ∧ (∀ (lookup : List Char → Option (List Nat)) (now : Int)
        (sig ts sid : List Char) (body : List Nat),
        parseI64 ts = none →
        verifyClusterSignature lookup now ⟨some sig, some ts, some sid, body⟩ = .unauthorized)
    ∧ (∀ (lookup : List Char → Option (List Nat)) (now : Int)
        (sig ts sid : List Char) (body : List Nat) (tsv : Int),
        parseI64 ts = some tsv → 30 < now - tsv →
        verifyClusterSignature lookup now ⟨some sig, some ts, some sid, body⟩ = .unauthorized)
    ∧ (∀ (lookup : List Char → Option (List Nat)) (now : Int)
        (sig ts sid : List Char) (body : List Nat) (tsv : Int),
        parseI64 ts = some tsv → now - tsv ≤ 30 → 1048576 < body.length →
        verifyClusterSignature lookup now ⟨some sig, some ts, some sid, body⟩ = .badRequest)
    ∧ (∀ (lookup : List Char → Option (List Nat)) (now : Int)
        (sig ts sid : List Char) (body : List Nat) (tsv : Int),
        parseI64 ts = some tsv → now - tsv ≤ 30 → body.length ≤ 1048576 →
        lookup sid = none →
        verifyClusterSignature lookup now ⟨some sig, some ts, some sid, body⟩ = .unauthorized)
    ∧ (∀ (lookup : List Char → Option (List Nat)) (now : Int)
        (sig ts sid : List Char) (body : List Nat) (tsv : Int) (secret : List Nat),
        parseI64 ts = some tsv → now - tsv ≤ 30 → body.length ≤ 1048576 →
        lookup sid = some secret →
        (verifyClusterSignature lookup now ⟨some sig, some ts, some sid, body⟩ = .accepted
          ↔ hexDecode sig = some (hmacSha256 secret (body ++ asciiBytes ts)))) := by
  refine ⟨?_, ?_, ?_, ?_, ?_, ?_⟩
  · intro lookup now req hmiss
    rcases req with ⟨s, t, i, b⟩
    rcases hmiss with hm | hm | hm <;> dsimp only at hm <;> subst hm
    · rfl
    · cases s <;> rfl
    · cases s <;> cases t <;> rfl
  · intro lookup now sig ts sid body hparse
    rw [verifyClusterSignature]
    dsimp only
    rw [validateTimestamp, hparse]
    rfl
  · intro lookup now sig ts sid body tsv hparse hstale
    rw [verifyClusterSignature]
    dsimp only
    rw [validateTimestamp, hparse]
    dsimp only
    rw [if_pos (by
      rw [MAX_TIMESTAMP_AGE_SECONDS, decide_eq_true (by omega : (30 : Int) < now - tsv)]
      rfl)]
  · intro lookup now sig ts sid body tsv hparse hfresh hbig
    rw [verifyClusterSignature]
    dsimp only
    rw [validateTimestamp, hparse]
    dsimp only
    rw [if_neg (by
      rw [MAX_TIMESTAMP_AGE_SECONDS, decide_eq_false (by omega : ¬((30 : Int) < now - tsv))]
      simp),
      if_pos (by rw [MAX_BODY_BYTES]; omega)]
  · intro lookup now sig ts sid body tsv hparse hfresh hsmall hlook
    rw [verifyClusterSignature]
    dsimp only
    rw [validateTimestamp, hparse]
    dsimp only
    rw [if_neg (by
      rw [MAX_TIMESTAMP_AGE_SECONDS, decide_eq_false (by omega : ¬((30 : Int) < now - tsv))]
      simp),
      if_neg (by rw [MAX_BODY_BYTES]; omega), hlook]
  · intro lookup now sig ts sid body tsv secret hparse hfresh hsmall hlook
    rw [verifyClusterSignature]
    dsimp only
    rw [validateTimestamp, hparse]
    dsimp only
    rw [if_neg (by
      rw [MAX_TIMESTAMP_AGE_SECONDS, decide_eq_false (by omega : ¬((30 : Int) < now - tsv))]
      simp),
      if_neg (by rw [MAX_BODY_BYTES]; omega), hlook]
    cases hdec : hexDecode sig with
    | none =>
      dsimp only
      constructor
      · intro h
        exact absurd h (by simp)
      · intro h
        exact absurd h (by simp)
    | some sigBytes =>
      dsimp only
      by_cases heq : sigBytes = hmacSha256 secret (body ++ asciiBytes ts)
      · rw [if_pos heq, heq]
        simp
      · rw [if_neg heq]
        constructor
        · intro h
          exact absurd h (by simp)
        · intro h
          exact absurd (Option.some.inj h) heq

set_option maxRecDepth 100000 in
/-- C2 witness: the characterization applied at a concrete secret, body
and timestamp — the canonical lowercase-hex signature is accepted. -/
theorem C2_amended_witness :
    verifyClusterSignature
        (fun sid => if sid = str "s" then some (asciiBytes (str "k")) else none) 0
        ⟨some (hexEncode (hmacSha256 (asciiBytes (str "k")) ([] ++ asciiBytes (str "0")))),
          some (str "0"), some (str "s"), []⟩
      = .accepted := by
  exact (C2_amended_signature_characterization.2.2.2.2.2
    (fun sid => if sid = str "s" then some (asciiBytes (str "k")) else none) 0
    (hexEncode (hmacSha256 (asciiBytes (str "k")) ([] ++ asciiBytes (str "0"))))
    (str "0") (str "s") [] 0 (asciiBytes (str "k"))
    (by decide) (by decide) (by decide) (by decide)).mpr (by decide)

end NanoScale
